import Mathlib

/-!
WhatsApp CRM integration: ingestion and query layer.

A shallow embedding of `src/utils/dbOperations.js`, of the message handler of
`src/api/whatsapp.js` and of the schemas of `src/models/Chat.js`.

The MongoDB collections are two lists of documents in insertion order. Every
`await` on the database is a function on the store; the outcome of what lies
outside the program (driver failures, writes of concurrent clients, the media
download, the wall clock) is passed in explicitly.
-/

namespace WhatsappCrm

/-! ## Data model (`src/models/Chat.js`) -/

/-- A reading of the clock (`new Date()`, `Date.now()`): milliseconds since the epoch. -/
abbrev Instant := Nat

/-- A JavaScript `Date` object built from a number of milliseconds: a time value, or
`Invalid Date`. -/
inductive JsDate where
  | time (ms : Nat)
  | invalid
deriving DecidableEq, Repr

/-- The largest time value of a `Date`: `8.64e15` milliseconds after the epoch. -/
def maxTimeValue : Nat := 8640000000000000

/-- The constructor call `new Date(ms)` for a non-negative integer `ms`: beyond the largest
time value the result is `Invalid Date`. -/
def newDate (ms : Nat) : JsDate :=
  if ms ≤ maxTimeValue then .time ms else .invalid

/-- The rank of a date in a sort: `Invalid Date` comes before every time value, which cannot
be observed here because validation keeps it out of the store. -/
def JsDate.rank : JsDate → Nat
  | .time ms => ms + 1
  | .invalid => 0

instance : LE JsDate := ⟨fun a b => a.rank ≤ b.rank⟩

instance (a b : JsDate) : Decidable (a ≤ b) :=
  inferInstanceAs (Decidable (a.rank ≤ b.rank))

/-- The object handed to `saveMessageToDatabase`, with the paths of `messageSchema`.
`from_` and `to_` are the schema paths `from` and `to`. The optional `location` and `contact`
paths are never written by this program and are left out. -/
structure MessageData where
  messageId : String
  chatId : String
  body : Option String
  timestamp : JsDate
  from_ : String
  to_ : String
  type : String
  isForwarded : Bool
  isReply : Bool
  replyTo : Option String
  senderName : Option String
  senderNumber : Option String
  mediaUrl : Option String
  mediaType : Option String
  mediaSize : Option Nat
deriving DecidableEq, Repr

/-- A stored `Message` document: the schema paths plus the two instants that the schema option
`timestamps: true` maintains. -/
structure Message extends MessageData where
  createdAt : Instant
  updatedAt : Instant
deriving DecidableEq, Repr

/-- The nested path `metadata` of `chatSchema`. A counter that is absent from the stored
document is read back through its schema default `0`, and `$inc` treats an absent field as `0`,
so an absent counter is stored here as `0`. -/
structure ChatMetadata where
  description : String
  createdAt : Instant
  createdBy : Option String
  messageCount : Nat
  mediaCount : Nat
deriving DecidableEq, Repr

/-- A stored `Chat` document. -/
structure Chat where
  chatId : String
  name : String
  isGroup : Bool
  participants : List String
  unreadCount : Int
  isArchived : Bool
  isPinned : Bool
  metadata : ChatMetadata
  createdAt : Instant
  updatedAt : Instant
deriving DecidableEq, Repr

/-- The two collections, each in insertion order. -/
structure Store where
  chats : List Chat
  messages : List Message
deriving DecidableEq, Repr

/-- The empty database. -/
def Store.empty : Store := { chats := [], messages := [] }

/-- The rejections a database call can end in. -/
inductive DbError where
  | validation (path : String)
  | duplicateKey (messageId : String)
  | unavailable
deriving DecidableEq, Repr

/-- The unique indexes of both schemas: no two chats share a `chatId` and no two messages share
a `messageId`. -/
def Store.UniqueKeys (s : Store) : Prop :=
  (s.chats.map (fun c => c.chatId)).Nodup ∧ (s.messages.map (fun m => m.messageId)).Nodup

instance (s : Store) : Decidable s.UniqueKeys := by
  unfold Store.UniqueKeys; infer_instance

/-! ## The raw events of the messaging client -/

/-- The chat object of the client, as far as `saveChatToDatabase` reads it. `id` is
`chat.id._serialized`, the participants are their `id._serialized`, `createdBy` is
`chat.createdBy.id._serialized`; `none` is a property that is `undefined`. -/
structure RawChat where
  id : String
  name : String
  isGroup : Bool
  participants : Option (List String)
  unreadCount : Option Int
  archived : Option Bool
  pinned : Option Bool
  description : Option String
  createdBy : Option String
deriving DecidableEq, Repr

/-- The contact object returned by `message.getContact()`. -/
structure RawContact where
  pushname : Option String
  number : Option String
deriving DecidableEq, Repr

/-- The message object of the client, as far as the handler reads it (`from_` and `to_` are
`from` and `to`); `timestamp` is in seconds. -/
structure RawMessage where
  id : String
  from_ : String
  to_ : String
  timestamp : Nat
  type : String
  body : Option String
  isForwarded : Bool
  hasQuotedMsg : Bool
  quotedMsgId : Option String
  hasMedia : Bool
deriving DecidableEq, Repr

/-- What the media branch of the handler meets: `failed` is `downloadMedia()` or one of the
file-system calls throwing (both are caught by the same inner `catch`, before any field of
`messageData` is assigned), `nothing` is `downloadMedia()` resolving to `undefined`, and
`fetched` is a download whose bytes were written to disk. -/
inductive MediaFetch where
  | failed
  | nothing
  | fetched (mimetype : String) (data : String)
deriving DecidableEq, Repr

/-! ## JavaScript helpers -/

/-- Truthiness of an optional string: `undefined`, `null` and `''` are falsy. -/
def truthy (x : Option String) : Bool :=
  match x with
  | some v => v != ""
  | none => false

/-- The operator `a || b` on optional strings. -/
def jsOr (a b : Option String) : Option String :=
  if truthy a then a else b

/-! ## Database primitives (Mongoose calls) -/

/-- The values of the `enum` validator of `messageSchema.type`. -/
def messageTypes : List String :=
  ["text", "image", "video", "audio", "document", "location", "contact", "sticker", "chat"]

/-- The validators that `message.save()` runs: the `required` string paths must be non-empty,
the `required` path `timestamp` must be a valid `Date`, and `type` must be in the enum. -/
def validateMessage (md : MessageData) : Except DbError Unit :=
  if md.messageId = "" then .error (.validation "messageId")
  else if md.chatId = "" then .error (.validation "chatId")
  else if md.timestamp = .invalid then .error (.validation "timestamp")
  else if md.from_ = "" then .error (.validation "from")
  else if md.to_ = "" then .error (.validation "to")
  else if md.type ∉ messageTypes then .error (.validation "type")
  else .ok ()

/-- The call `Message.findOne({ messageId })`. -/
def Message.findOne (messageId : String) (s : Store) : Option Message :=
  s.messages.find? (fun m => m.messageId == messageId)

/-- The call `new Message(messageData).save()`: validation, then the insert, which the unique
index on `messageId` rejects with a duplicate-key error when the key is taken. `down` is a
driver failure. Returns the saved document and the new store. -/
def Message.save (down : Bool) (now : Instant) (md : MessageData) (s : Store) :
    Except DbError (Message × Store) :=
  match validateMessage md with
  | .error e => .error e
  | .ok () =>
    if down then .error .unavailable
    else if s.messages.any (fun m => m.messageId == md.messageId) then
      .error (.duplicateKey md.messageId)
    else
      let message : Message := { toMessageData := md, createdAt := now, updatedAt := now }
      .ok (message, { s with messages := s.messages ++ [message] })

/-- Update the first element of a list that satisfies `p`, as `findOneAndUpdate` and
`updateOne` do with the first document matching the filter. -/
def updateFirst {α : Type} (p : α → Bool) (f : α → α) : List α → List α
  | [] => []
  | x :: xs => if p x then f x :: xs else x :: updateFirst p f xs

/-- The update `{ $inc: { 'metadata.messageCount': 1, 'metadata.mediaCount': n }, updatedAt }`
on one chat document. -/
def Chat.incCounters (now : Instant) (mediaDelta : Nat) (c : Chat) : Chat :=
  { c with
    metadata := { c.metadata with
      messageCount := c.metadata.messageCount + 1
      mediaCount := c.metadata.mediaCount + mediaDelta }
    updatedAt := now }

/-- The canonical chat record: the nested object `metadata` of `chatData`. -/
structure ChatDataMetadata where
  description : String
  createdAt : Instant
  createdBy : Option String
deriving DecidableEq, Repr

/-- The canonical chat record `chatData` built by `saveChatToDatabase`. -/
structure ChatData where
  chatId : String
  name : String
  isGroup : Bool
  participants : List String
  unreadCount : Int
  isArchived : Bool
  isPinned : Bool
  metadata : ChatDataMetadata
deriving DecidableEq, Repr

/-- The object literal `chatData` of `saveChatToDatabase`; `now` is `new Date()`. -/
def chatData (now : Instant) (chat : RawChat) : ChatData :=
  { chatId := chat.id
    name := chat.name
    isGroup := chat.isGroup
    participants := match chat.participants with
      | some ps => ps
      | none => []
    unreadCount := chat.unreadCount.getD 0
    isArchived := chat.archived.getD false
    isPinned := chat.pinned.getD false
    metadata :=
      { description := chat.description.getD ""
        createdAt := now
        createdBy := chat.createdBy } }

/-- The effect of the update document `chatData` on an existing chat. Mongoose wraps the
operator-free update in `$set` and leaves the nested object under the key `metadata` as it is,
so MongoDB replaces the whole embedded document `metadata` by the three fields of the payload:
`messageCount` and `mediaCount` are no longer stored and read back as their default `0`.
`updatedAt` is set by the `timestamps` option. -/
def Chat.setChatData (now : Instant) (d : ChatData) (c : Chat) : Chat :=
  { c with
    chatId := d.chatId
    name := d.name
    isGroup := d.isGroup
    participants := d.participants
    unreadCount := d.unreadCount
    isArchived := d.isArchived
    isPinned := d.isPinned
    metadata :=
      { description := d.metadata.description
        createdAt := d.metadata.createdAt
        createdBy := d.metadata.createdBy
        messageCount := 0
        mediaCount := 0 }
    updatedAt := now }

/-- The document that the upsert inserts when no chat matches the filter. -/
def Chat.ofChatData (now : Instant) (d : ChatData) : Chat :=
  { chatId := d.chatId
    name := d.name
    isGroup := d.isGroup
    participants := d.participants
    unreadCount := d.unreadCount
    isArchived := d.isArchived
    isPinned := d.isPinned
    metadata :=
      { description := d.metadata.description
        createdAt := d.metadata.createdAt
        createdBy := d.metadata.createdBy
        messageCount := 0
        mediaCount := 0 }
    createdAt := now
    updatedAt := now }

/-- The call `Chat.findOneAndUpdate({ chatId }, chatData, { upsert: true, new: true })`. -/
def Chat.upsert (down : Bool) (now : Instant) (d : ChatData) (s : Store) : Except DbError Store :=
  if down then .error .unavailable
  else if s.chats.any (fun c => c.chatId == d.chatId) then
    .ok { s with chats := updateFirst (fun c => c.chatId == d.chatId) (Chat.setChatData now d) s.chats }
  else
    .ok { s with chats := s.chats ++ [Chat.ofChatData now d] }

/-- The call `Chat.findOneAndUpdate({ chatId }, { $inc: ..., updatedAt })` without `upsert`:
nothing happens when no chat matches. -/
def Chat.findOneAndInc (now : Instant) (chatId : String) (mediaDelta : Nat) (s : Store) : Store :=
  { s with chats := updateFirst (fun c => c.chatId == chatId) (Chat.incCounters now mediaDelta) s.chats }

/-! ## Ingestion (`src/utils/dbOperations.js`) -/

/-- The function `saveChatToDatabase(chat)`. `down` is a failure of the database call. The
`catch` block only logs, so the function resolves normally in every case; the result type
still has room for a rejection so that this can be stated. -/
def saveChatToDatabase (down : Bool) (now : Instant) (chat : RawChat) (s : Store) :
    Except DbError Unit × Store :=
  match Chat.upsert down now (chatData now chat) s with
  | .ok s1 => (.ok (), s1)
  | .error _ => (.ok (), s)

/-- What surrounds one run of `saveMessageToDatabase`: a failure of each of its three database
calls, and the writes that other clients commit between the existence check and the insert. -/
structure SaveEnv where
  findFails : Bool
  concurrent : Store → Store
  insertFails : Bool
  updateFails : Bool

/-- A healthy database with no other writer. -/
def SaveEnv.quiet : SaveEnv :=
  { findFails := false, concurrent := id, insertFails := false, updateFails := false }

/-- The function `saveMessageToDatabase(messageData)`: the result or the rethrown error, and
the store it leaves. -/
def saveMessageToDatabase (env : SaveEnv) (now : Instant) (md : MessageData) (s : Store) :
    Except DbError Message × Store :=
  if env.findFails then (.error .unavailable, s)
  else
    match Message.findOne md.messageId s with
    | some existingMessage => (.ok existingMessage, s)
    | none =>
      let s1 := env.concurrent s
      match Message.save env.insertFails now md s1 with
      | .error e => (.error e, s1)
      | .ok (message, s2) =>
        if env.updateFails then (.error .unavailable, s2)
        else (.ok message, Chat.findOneAndInc now md.chatId (if truthy md.mediaUrl then 1 else 0) s2)

/-- The function `deleteChat(chatId)`: `Message.deleteMany({ chatId })`, then
`Chat.deleteOne({ chatId })`, and the result `deletedCount > 0` of the latter. The two flags
are failures of the two database calls. -/
def deleteChat (deleteManyFails deleteOneFails : Bool) (chatId : String) (s : Store) :
    Except DbError Bool × Store :=
  if deleteManyFails then (.error .unavailable, s)
  else
    let s1 : Store := { s with messages := s.messages.filter (fun m => m.chatId != chatId) }
    if deleteOneFails then (.error .unavailable, s1)
    else
      (.ok (s1.chats.any (fun c => c.chatId == chatId)),
        { s1 with chats := s1.chats.eraseP (fun c => c.chatId == chatId) })

/-! ## The message handler (`src/api/whatsapp.js`) -/

/-- The object literal `messageData` of the handler, before the media branch. -/
def messageData (message : RawMessage) (chat : RawChat) (contact : RawContact) : MessageData :=
  { messageId := message.id
    chatId := chat.id
    body := jsOr message.body (some "")
    timestamp := newDate (message.timestamp * 1000)
    from_ := (jsOr (jsOr contact.pushname contact.number) (some message.from_)).getD ""
    to_ := message.to_
    type := message.type
    isForwarded := message.isForwarded
    isReply := message.hasQuotedMsg
    replyTo := if message.hasQuotedMsg then message.quotedMsgId else none
    senderName := jsOr contact.pushname contact.number
    senderNumber := contact.number
    mediaUrl := none
    mediaType := none
    mediaSize := none }

/-- The media branch of the handler: the three media fields are assigned only when the message
has media and the download delivered it. `mediaDir` is the directory `uploads/media` and `now`
is `Date.now()`. -/
def attachMedia (mediaDir : String) (now : Instant) (message : RawMessage) (fetch : MediaFetch)
    (md : MessageData) : MessageData :=
  if message.hasMedia then
    match fetch with
    | .fetched mimetype data =>
      { md with
        mediaUrl := some (mediaDir ++ "/" ++ toString now ++ "-" ++ message.id)
        mediaType := some mimetype
        mediaSize := some data.length }
    | .nothing => md
    | .failed => md
  else md

/-- What surrounds one run of the message handler. -/
structure HandlerEnv where
  chatUpsertFails : Bool
  media : MediaFetch
  mediaDir : String
  save : SaveEnv

/-- A healthy database, no other writer, and the given media outcome. -/
def HandlerEnv.quiet (media : MediaFetch) : HandlerEnv :=
  { chatUpsertFails := false, media := media, mediaDir := "uploads/media", save := SaveEnv.quiet }

/-- The handler `client.on('message', ...)`, given the chat and the contact that
`message.getChat()` and `message.getContact()` resolve to. The handler itself never rejects:
the result is the saved document, or the error that its outer `catch` logged. `now` stands
for the clock reads of this run. -/
def onMessage (env : HandlerEnv) (now : Instant) (message : RawMessage) (chat : RawChat)
    (contact : RawContact) (s : Store) : Except DbError Message × Store :=
  match saveChatToDatabase env.chatUpsertFails now chat s with
  | (.error e, s1) => (.error e, s1)
  | (.ok (), s1) =>
    saveMessageToDatabase env.save now
      (attachMedia env.mediaDir now message env.media (messageData message chat contact)) s1

/-- A sequence of ingestions, one after the other, on a healthy database: each event is a
message with its chat, its contact, the outcome of its media download and the instant at which
it is handled. -/
def ingestAll (events : List (RawMessage × RawChat × RawContact × MediaFetch × Instant))
    (s : Store) : Store :=
  events.foldl (fun acc ev =>
    (onMessage (HandlerEnv.quiet ev.2.2.2.1) ev.2.2.2.2 ev.1 ev.2.1 ev.2.2.1 acc).2) s

/-- The stored messages of a chat. -/
def Store.messagesOf (s : Store) (chatId : String) : List Message :=
  s.messages.filter (fun m => m.chatId == chatId)

/-- The stored chat with the given `chatId`, as `Chat.findOne({ chatId })` returns it. -/
def Chat.findOne (chatId : String) (s : Store) : Option Chat :=
  s.chats.find? (fun c => c.chatId == chatId)

/-! ## The example scenario of the specification -/

/-- The chat `{id: "c1", name: "Alice", isGroup: false}`. -/
def chatC1 : RawChat :=
  { id := "c1", name := "Alice", isGroup := false, participants := none, unreadCount := none,
    archived := none, pinned := none, description := none, createdBy := none }

/-- The contact that sends the example messages. -/
def contactAlice : RawContact := { pushname := some "Alice", number := some "491700000001" }

/-- The message `{id: "m1", chatId: "c1", body: "hi", type: "text", hasMedia: false}`. -/
def messageM1 : RawMessage :=
  { id := "m1", from_ := "491700000001@c.us", to_ := "491700000002@c.us", timestamp := 1700000000,
    type := "text", body := some "hi", isForwarded := false, hasQuotedMsg := false,
    quotedMsgId := none, hasMedia := false }

/-- A second message of chat `c1`, an image whose media must be downloaded. -/
def messageM2 : RawMessage :=
  { id := "m2", from_ := "491700000001@c.us", to_ := "491700000002@c.us", timestamp := 1700000060,
    type := "image", body := some "look", isForwarded := false, hasQuotedMsg := false,
    quotedMsgId := none, hasMedia := true }

/-- The canonical record of `m1`. -/
def dataM1 : MessageData := messageData messageM1 chatC1 contactAlice

/-- The store after chat `c1` alone was saved at instant `100`. -/
def storeC1 : Store := (saveChatToDatabase false 100 chatC1 Store.empty).2

/-- The store after the handler ingested `m1` of chat `c1` at instant `100`. -/
def storeC1M1 : Store :=
  (onMessage (HandlerEnv.quiet .nothing) 100 messageM1 chatC1 contactAlice Store.empty).2

/-- The canonical record of `m2` after a download that delivered four bytes of JPEG data at
instant `160`. -/
def dataM2 : MessageData :=
  attachMedia "uploads/media" 160 messageM2 (.fetched "image/jpeg" "AAAA")
    (messageData messageM2 chatC1 contactAlice)

/-- The store after `saveMessageToDatabase` stored `m1` and then `m2` (with its media) into
`storeC1`: chat `c1` has `messageCount = 2` and `mediaCount = 1`. -/
def storeCounted : Store :=
  (saveMessageToDatabase SaveEnv.quiet 160 dataM2
    (saveMessageToDatabase SaveEnv.quiet 150 dataM1 storeC1).2).2

/-- A run of the handler in which the database call of the chat upsert fails. -/
def upsertFailsEnv : HandlerEnv :=
  { chatUpsertFails := true, media := .nothing, mediaDir := "uploads/media",
    save := SaveEnv.quiet }

/-- A run of `saveMessageToDatabase` during which another writer stores the record of `m1`
between the existence check and the insert. -/
def raceEnv : SaveEnv :=
  { findFails := false
    concurrent := fun t => (saveMessageToDatabase SaveEnv.quiet 140 dataM1 t).2
    insertFails := false
    updateFails := false }

/-- The `messageCount` and `mediaCount` of the stored chat with the given `chatId`. -/
def Store.counters (s : Store) (chatId : String) : Option (Nat × Nat) :=
  (Chat.findOne chatId s).map (fun c => (c.metadata.messageCount, c.metadata.mediaCount))

/-- The store that the handler leaves when the chat upsert for `c1` fails on the empty store:
message `m1` without any chat. -/
def storeOrphan : Store :=
  (onMessage upsertFailsEnv 100 messageM1 chatC1 contactAlice Store.empty).2

/-! ## Queries (`src/utils/dbOperations.js`) -/

/-- The cursor method `.sort({ timestamp: -1 })`: latest first. -/
def sortByTimestampDesc (ms : List Message) : List Message :=
  ms.insertionSort (fun a b => b.timestamp ≤ a.timestamp)

instance : IsTotal Message (fun a b => b.timestamp ≤ a.timestamp) :=
  ⟨fun a b => Nat.le_total b.timestamp.rank a.timestamp.rank⟩

instance : IsTrans Message (fun a b => b.timestamp ≤ a.timestamp) :=
  ⟨fun a b c hab hbc =>
    Nat.le_trans (m := b.timestamp.rank) (n := c.timestamp.rank) (k := a.timestamp.rank) hbc hab⟩

/-- The expression `[...new Set(ids)]`: the first occurrence of every element, in order. -/
def uniqueIds : List String → List String
  | [] => []
  | x :: xs => x :: (uniqueIds xs).filter (fun y => y != x)

/-- One element of a regular expression of the modelled fragment: a literal character, or the
dot. -/
inductive RegExpAtom where
  | literal (c : Char)
  | anyChar
deriving DecidableEq, Repr

/-- The characters with a special meaning in a regular expression: the backslash,
`^ $ . | ? * + ( ) [ ]` and the two braces. -/
def regExpSpecial : List Char :=
  [Char.ofNat 92, '^', '$', '.', '|', '?', '*', '+', '(', ')', '[', ']', Char.ofNat 123,
    Char.ofNat 125]

/-- The character is in the ASCII range. -/
def isAscii (c : Char) : Bool := c.toNat < 128

/-- One character of the source of a regular expression; `none` for a special character
other than the dot, and for a character outside the ASCII range. -/
def parseAtom (c : Char) : Option RegExpAtom :=
  if c = '.' then some .anyChar
  else if c ∈ regExpSpecial then none
  else if isAscii c then some (.literal c)
  else none

/-- The constructor call `new RegExp(searchTerm, 'i')` on the fragment of the syntax that is
modelled here: sequences of ASCII literal characters and dots. The result is `none` for a
source with any other special character (an escape, an anchor, a quantifier, a group, a
class, an alternation) or with a character outside the ASCII range, which this model does
not interpret. -/
def parseRegExp : List Char → Option (List RegExpAtom)
  | [] => some []
  | c :: cs =>
    match parseAtom c, parseRegExp cs with
    | some a, some as => some (a :: as)
    | _, _ => none

/-- One atom against one character under the flag `i`, for ASCII characters: a literal
matches the same letter in either case, the dot matches every character except the line
feed. The result is `none` where the answer depends on the regular-expression engine and its
Unicode tables, which are not modelled: a character outside the ASCII range (non-ASCII
letters are case folded too), and the dot against a carriage return. -/
def RegExpAtom.accepts (a : RegExpAtom) (c : Char) : Option Bool :=
  if isAscii c then
    match a with
    | .literal p => if isAscii p then some (p.toLower == c.toLower) else none
    | .anyChar => if c = Char.ofNat 13 then none else some (c != Char.ofNat 10)
  else none

/-- The pattern matches a prefix of the text; `none` when a comparison is not modelled. -/
def matchHere : List RegExpAtom → List Char → Option Bool
  | [], _ => some true
  | _ :: _, [] => some false
  | a :: as, c :: cs =>
    match a.accepts c, matchHere as cs with
    | some x, some y => some (x && y)
    | _, _ => none

/-- The pattern matches somewhere in the text (the pattern is not anchored); `none` when a
comparison is not modelled. -/
def matchAnywhere (pattern : List RegExpAtom) : List Char → Option Bool
  | [] => matchHere pattern []
  | c :: cs =>
    match matchHere pattern (c :: cs), matchAnywhere pattern cs with
    | some x, some y => some (x || y)
    | _, _ => none

/-- The query condition `{ body: regex }` on one message: a message without `body` does not
match; `none` when a comparison is not modelled. -/
def bodyMatches (regex : List RegExpAtom) (m : Message) : Option Bool :=
  match m.body with
  | some b => matchAnywhere regex b.toList
  | none => some false

/-- An element of the result of `searchMessages`: the fields of the chat and `messages`. -/
structure ChatWithMessages where
  chat : Chat
  messages : List Message
deriving DecidableEq, Repr

/-- The function `searchMessages(searchTerm)`; `none` when the search term is outside the
modelled fragment of the regular-expression syntax, or when the match of the term against a
stored body is not modelled (text outside the ASCII range). -/
def searchMessages (searchTerm : String) (s : Store) : Option (List ChatWithMessages) :=
  match parseRegExp searchTerm.toList with
  | none => none
  | some regex =>
    if s.messages.all (fun m => (bodyMatches regex m).isSome) then
      let messages :=
        sortByTimestampDesc (s.messages.filter (fun m => bodyMatches regex m == some true))
      let chatIds := uniqueIds (messages.map (fun m => m.chatId))
      let chats := s.chats.filter (fun c => chatIds.contains c.chatId)
      some (chats.map (fun chat =>
        { chat := chat, messages := messages.filter (fun m => m.chatId == chat.chatId) }))
    else none

/-! ## What the specification says about search -/

/-- The text `body` contains `term` as a substring, ignoring letter case. The case of the
ASCII letters is folded; the statements below use this on ASCII text only. -/
def containsIgnoreCase (term body : String) : Prop :=
  term.toList.map Char.toLower <:+: body.toList.map Char.toLower

instance (term body : String) : Decidable (containsIgnoreCase term body) := by
  unfold containsIgnoreCase; infer_instance

/-- The body of the message contains `term` as a substring, ignoring letter case. -/
def bodyContains (term : String) (m : Message) : Bool :=
  match m.body with
  | some b => decide (containsIgnoreCase term b)
  | none => false

/-- The body of the message, if it has one, is ASCII text. -/
def Message.asciiBody (m : Message) : Bool :=
  match m.body with
  | some b => b.toList.all isAscii
  | none => true

/-! ## Listing queries (`src/utils/dbOperations.js`) -/

/-- The cursor method `.limit(n)`: at most `n` documents, and no limit at all for `n = 0`. -/
def limitTo {α : Type} (n : Nat) (l : List α) : List α :=
  if n = 0 then l else l.take n

/-- The function `getChatMessages(chatId, limit)`: the messages of the chat, latest first, cut
at the limit. Reads are taken to succeed. -/
def getChatMessages (chatId : String) (limit : Nat) (s : Store) : List Message :=
  limitTo limit (sortByTimestampDesc (s.messages.filter (fun m => m.chatId == chatId)))

/-- The function `getChatById(chatId)`: `null` when no chat matches, otherwise the fields of
the chat and its `50` latest messages. -/
def getChatById (chatId : String) (s : Store) : Option ChatWithMessages :=
  match s.chats.find? (fun c => c.chatId == chatId) with
  | none => none
  | some chat =>
    some
      { chat := chat
        messages :=
          limitTo 50 (sortByTimestampDesc (s.messages.filter (fun m => m.chatId == chatId))) }

/-- The query document of `getMediaMessages`: `{ mediaType: type }` for a truthy `type`,
otherwise `{ mediaType: { $exists: true } }`. -/
def mediaQuery (type : Option String) (m : Message) : Bool :=
  if truthy type then m.mediaType == type else m.mediaType.isSome

/-- The lookup `chatMap.get(chatId)` in `new Map(chats.map(c => [c.chatId, c]))`: of several
entries with one key the last one stays. -/
def chatMapGet (chats : List Chat) (chatId : String) : Option Chat :=
  (chats.filter (fun c => c.chatId == chatId)).getLast?

/-- An element of the result of `getMediaMessages`. -/
structure MediaEntry where
  chatId : String
  chatName : String
  message : Message
deriving DecidableEq, Repr

/-- The expression `chatMap.get(message.chatId)?.name || 'Unknown'`. -/
def chatNameOf (chats : List Chat) (chatId : String) : String :=
  match chatMapGet chats chatId with
  | some c => if c.name != "" then c.name else "Unknown"
  | none => "Unknown"

/-- The function `getMediaMessages(type, limit)`. -/
def getMediaMessages (type : Option String) (limit : Nat) (s : Store) : List MediaEntry :=
  let messages := limitTo limit (sortByTimestampDesc (s.messages.filter (mediaQuery type)))
  let chatIds := uniqueIds (messages.map (fun m => m.chatId))
  let chats := s.chats.filter (fun c => chatIds.contains c.chatId)
  messages.map (fun message =>
    { chatId := message.chatId
      chatName := chatNameOf chats message.chatId
      message := message })

/-! ## Recomputed counters (`src/models/Chat.js`) -/

/-- The method `chatSchema.methods.updateMetadata`: `messageCount` is the number of messages
with the chat's `chatId`, `mediaCount` the number of those whose `type` is not `'text'`. -/
def Chat.updateMetadata (s : Store) (c : Chat) : Chat :=
  { c with
    metadata := { c.metadata with
      messageCount := s.messages.countP (fun m => m.chatId == c.chatId)
      mediaCount := s.messages.countP (fun m => m.chatId == c.chatId && m.type != "text") } }

/-- The message carries a media reference: its `mediaUrl` is set. -/
def Message.hasMediaRef (m : Message) : Bool := truthy m.mediaUrl

/-- The number of stored messages of a chat and the number of those with a media reference:
what the specification says the two counters are. -/
def Store.countsOf (s : Store) (chatId : String) : Nat × Nat :=
  (s.messages.countP (fun m => m.chatId == chatId),
    s.messages.countP (fun m => m.chatId == chatId && m.hasMediaRef))

/-! ## Further example data -/

/-- A chat whose name is the empty string. -/
def chatC2 : RawChat :=
  { id := "c2", name := "", isGroup := false, participants := none, unreadCount := none,
    archived := none, pinned := none, description := none, createdBy := none }

/-- An image message of chat `c2`. -/
def messageM3 : RawMessage :=
  { id := "m3", from_ := "491700000003@c.us", to_ := "491700000002@c.us", timestamp := 1700000120,
    type := "image", body := none, isForwarded := false, hasQuotedMsg := false,
    quotedMsgId := none, hasMedia := true }

/-- The store after the handler ingested `m3` of chat `c2`, with its media, at instant `300`. -/
def storeC2M3 : Store :=
  (onMessage (HandlerEnv.quiet (.fetched "image/jpeg" "AAAA")) 300 messageM3 chatC2 contactAlice
    Store.empty).2

/-- A record with a `mediaType` but without `mediaUrl`, as a caller of
`saveMessageToDatabase` other than the handler may pass it. -/
def dataTypeOnly : MessageData :=
  { dataM1 with messageId := "m4", mediaType := some "image/jpeg" }

/-- The store after `saveMessageToDatabase` stored `dataTypeOnly` into `storeC1`. -/
def storeTypeOnly : Store := (saveMessageToDatabase SaveEnv.quiet 400 dataTypeOnly storeC1).2

/-- A message event whose `timestamp`, in seconds, is beyond the range of a `Date` once
multiplied by `1000`. -/
def messageFarFuture : RawMessage :=
  { id := "m6", from_ := "491700000001@c.us", to_ := "491700000002@c.us",
    timestamp := 8640000000001, type := "chat", body := some "later", isForwarded := false,
    hasQuotedMsg := false, quotedMsgId := none, hasMedia := false }

/-- A plain text message as the client delivers it: its `type` is `chat`. -/
def messageM5 : RawMessage :=
  { id := "m5", from_ := "491700000001@c.us", to_ := "491700000002@c.us", timestamp := 1700000180,
    type := "chat", body := some "hello", isForwarded := false, hasQuotedMsg := false,
    quotedMsgId := none, hasMedia := false }

/-- The store after the handler ingested the text message `m5` of chat `c1` into the empty
store at instant `500`. -/
def storeC1M5 : Store :=
  (onMessage (HandlerEnv.quiet .nothing) 500 messageM5 chatC1 contactAlice Store.empty).2

/-! ## Interleaved runs of the handler -/

/-- The point that one run of the handler has reached. Every phase but the last is an `await`
on a database call that has not been issued yet: the chat upsert, the existence check, the
insert, the counter update. The download of the media is awaited between the upsert and the
existence check; it does not touch the store and is not a phase of its own. -/
inductive Phase where
  | upsert (chat : RawChat)
  | find
  | insert
  | increment (message : Message)
  | finished (result : Except DbError Message)

/-- One run: the record it saves, its clock, and the phase it is in. A run of the whole
handler starts in the phase `upsert`, a call of `saveMessageToDatabase` in the phase `find`. -/
structure Run where
  data : MessageData
  now : Instant
  phase : Phase

/-- A run of the handler for a message event, before its first database call. -/
def Run.ofEvent (mediaDir : String) (now : Instant) (message : RawMessage) (chat : RawChat)
    (contact : RawContact) (fetch : MediaFetch) : Run :=
  { data := attachMedia mediaDir now message fetch (messageData message chat contact)
    now := now
    phase := .upsert chat }

/-- A call of `saveMessageToDatabase(messageData)`, before its first database call. -/
def Run.ofData (now : Instant) (md : MessageData) : Run :=
  { data := md, now := now, phase := .find }

/-- The next database call of a run, on a healthy database. Each call is atomic: a single
document operation of MongoDB. -/
def Run.step (r : Run) (s : Store) : Run × Store :=
  match r.phase with
  | .upsert chat => ({ r with phase := .find }, (saveChatToDatabase false r.now chat s).2)
  | .find =>
    match Message.findOne r.data.messageId s with
    | some existingMessage => ({ r with phase := .finished (.ok existingMessage) }, s)
    | none => ({ r with phase := .insert }, s)
  | .insert =>
    match Message.save false r.now r.data s with
    | .error e => ({ r with phase := .finished (.error e) }, s)
    | .ok (message, s2) => ({ r with phase := .increment message }, s2)
  | .increment message =>
    ({ r with phase := .finished (.ok message) },
      Chat.findOneAndInc r.now r.data.chatId (if truthy r.data.mediaUrl then 1 else 0) s)
  | .finished _ => (r, s)

/-- The run with index `i` performs its next database call. -/
def stepAt (i : Nat) (runs : List Run) (s : Store) : List Run × Store :=
  match runs[i]? with
  | none => (runs, s)
  | some r => (runs.set i (r.step s).1, (r.step s).2)

/-- An interleaving of concurrent runs: the schedule names, call by call, the run whose
database call is served next. -/
def interleave (schedule : List Nat) (runs : List Run) (s : Store) : List Run × Store :=
  schedule.foldl (fun acc i => stepAt i acc.1 acc.2) (runs, s)

/-- The run has returned. -/
def Run.isFinished (r : Run) : Bool :=
  match r.phase with
  | .finished _ => true
  | _ => false

/-- The handler runs for `m1` and `m2` (with its media) of chat `c1`, started together. -/
def runsM1M2 : List Run :=
  [Run.ofEvent "uploads/media" 100 messageM1 chatC1 contactAlice .nothing,
    Run.ofEvent "uploads/media" 160 messageM2 chatC1 contactAlice (.fetched "image/jpeg" "AAAA")]

/-- The handler runs for `m1`, `m2` and `m5` of chat `c1`, started together. -/
def runsM1M2M5 : List Run :=
  [Run.ofEvent "uploads/media" 100 messageM1 chatC1 contactAlice .nothing,
    Run.ofEvent "uploads/media" 160 messageM2 chatC1 contactAlice (.fetched "image/jpeg" "AAAA"),
    Run.ofEvent "uploads/media" 500 messageM5 chatC1 contactAlice .nothing]

/-- The run has not inserted its message yet. -/
def Run.awaitsInsert (r : Run) : Bool :=
  match r.phase with
  | .find => true
  | .insert => true
  | _ => false

/-- The run has not incremented the counters of its chat yet. -/
def Run.awaitsIncrement (r : Run) : Bool :=
  match r.phase with
  | .find => true
  | .insert => true
  | .increment _ => true
  | _ => false

/-- The run is past the chat upsert, or is a call of `saveMessageToDatabase` alone. -/
def Run.isSave (r : Run) : Bool :=
  match r.phase with
  | .upsert _ => false
  | _ => true

/-- The amount by which the run increments `mediaCount`. -/
def Run.mediaDelta (r : Run) : Nat := if truthy r.data.mediaUrl then 1 else 0

/-- A call of `saveMessageToDatabase` for chat `k` whose record is valid and whose `messageId`
is not stored as long as the call has not inserted it. -/
def Run.Fresh (k : String) (r : Run) (s : Store) : Prop :=
  r.data.chatId = k ∧ validateMessage r.data = .ok () ∧ r.isSave = true ∧
  (r.awaitsInsert = true → ∀ m ∈ s.messages, m.messageId ≠ r.data.messageId)

/-- What every interleaving of calls of `saveMessageToDatabase` for chat `k` keeps true: every
call is fresh, no two calls share a `messageId`, and the stored messages of `k` and the
counters of `k`, each together with what the calls still owe, stay at `M`, `M'`, `C`, `C'`. -/
def interleaveInv (k : String) (M M' C C' : Nat) (runs : List Run) (s : Store) : Prop :=
  (∀ (i : Nat) (r : Run), runs[i]? = some r → r.Fresh k s) ∧
  (∀ (i j : Nat) (ri rj : Run), runs[i]? = some ri → runs[j]? = some rj →
    ri.data.messageId = rj.data.messageId → i = j) ∧
  (s.countsOf k).1 + (runs.map (fun r => if r.awaitsInsert then 1 else 0)).sum = M ∧
  (s.countsOf k).2 + (runs.map (fun r => if r.awaitsInsert then r.mediaDelta else 0)).sum = M' ∧
  ∃ c, Chat.findOne k s = some c ∧
    c.metadata.messageCount + (runs.map (fun r => if r.awaitsIncrement then 1 else 0)).sum = C ∧
    c.metadata.mediaCount +
      (runs.map (fun r => if r.awaitsIncrement then r.mediaDelta else 0)).sum = C'

/-! # Theorems -/

/-! ## Lemmas on the database primitives -/

theorem updateFirst_find? {α : Type} (p : α → Bool) (f : α → α)
    (hf : ∀ x, p x = true → p (f x) = true) (l : List α) :
    (updateFirst p f l).find? p = (l.find? p).map f := by
  induction l with
  | nil => rfl
  | cons x xs ih =>
    by_cases hx : p x = true
    · simp [updateFirst, hx, List.find?_cons, hf x hx]
    · simp [updateFirst, hx, List.find?_cons, ih]

theorem updateFirst_filter_not {α : Type} (p : α → Bool) (f : α → α)
    (hf : ∀ x, p x = true → p (f x) = true) (l : List α) :
    (updateFirst p f l).filter (fun x => !p x) = l.filter (fun x => !p x) := by
  induction l with
  | nil => rfl
  | cons x xs ih =>
    by_cases hx : p x = true
    · simp [updateFirst, hx, List.filter_cons, hf x hx]
    · simp [updateFirst, hx, List.filter_cons, ih]

theorem findOne_eq_none_iff (k : String) (s : Store) :
    Message.findOne k s = none ↔ s.messages.any (fun m => m.messageId == k) = false := by
  simp [Message.findOne, List.find?_eq_none]

theorem countP_key_of_nodup {α : Type} (key : α → String) (k : String) (l : List α)
    (hl : (l.map key).Nodup) (x : α) (hx : x ∈ l) (hk : key x = k) :
    l.countP (fun y => key y == k) = 1 := by
  have h1 : (l.map key).count k = 1 :=
    List.count_eq_one_of_mem hl (List.mem_map.mpr ⟨x, hx, hk⟩)
  rw [List.count, List.countP_map] at h1
  rw [← h1]
  rfl

theorem saveMessageToDatabase_ok_cases (env : SaveEnv) (henv : ∀ t, env.concurrent t = t)
    (now : Instant) (md : MessageData) (s s1 : Store) (m : Message)
    (h : saveMessageToDatabase env now md s = (.ok m, s1)) :
    (Message.findOne md.messageId s = some m ∧ s1 = s) ∨
    (Message.findOne md.messageId s = none ∧
      m = { toMessageData := md, createdAt := now, updatedAt := now } ∧
      s1 = Chat.findOneAndInc now md.chatId (if truthy md.mediaUrl then 1 else 0)
        { s with messages := s.messages ++ [m] }) := by
  unfold saveMessageToDatabase at h
  by_cases hf : env.findFails = true
  · simp [hf] at h
  · simp only [hf] at h
    cases hfind : Message.findOne md.messageId s with
    | some e =>
      simp [hfind] at h
      left
      simp [h.1, h.2]
    | none =>
      right
      simp only [hfind, henv] at h
      unfold Message.save at h
      cases hv : validateMessage md with
      | error e => simp [hv] at h
      | ok u =>
        simp only [hv] at h
        by_cases hd : env.insertFails = true
        · simp [hd] at h
        · by_cases hdup : s.messages.any (fun m => m.messageId == md.messageId) = true
          · simp [hd, hdup] at h
          · by_cases hu : env.updateFails = true
            · simp [hd, hdup, hu] at h
            · simp [hd, hdup, hu] at h
              obtain ⟨h1, h2⟩ := h
              subst h1
              exact ⟨rfl, rfl, h2.symm⟩

/-! ## Idempotent writer -/

theorem findOne_append_new (k : String) (s : Store) (m : Message) (hk : m.messageId = k)
    (hnone : Message.findOne k s = none) :
    Message.findOne k { s with messages := s.messages ++ [m] } = some m := by
  unfold Message.findOne at hnone ⊢
  simp [List.find?_append, hnone, List.find?_cons, hk]

theorem findOne_findOneAndInc (k : String) (now : Instant) (c : String) (d : Nat) (s : Store) :
    Message.findOne k (Chat.findOneAndInc now c d s) = Message.findOne k s := rfl

/-- C1. `saveMessageToDatabase` is idempotent on `messageId`. On a store that respects the
unique indexes, if a first call (no concurrent writer) succeeds with record `m` and store
`s1`, then a second call with the same `messageData`, at any later instant, returns the same
stored record `m` and leaves the store `s1` unchanged; `s1` holds exactly one message with
that `messageId`; and when the message was new, the owning chat's `messageCount` and
`mediaCount` in the store after both calls are those before the first call plus one increment
(`1`, and `1` for a media reference). -/
theorem saveMessageToDatabase_idempotent (env : SaveEnv) (henv : ∀ t, env.concurrent t = t)
    (now now2 : Instant) (md : MessageData) (s s1 : Store) (m : Message)
    (hs : s.UniqueKeys)
    (h : saveMessageToDatabase env now md s = (.ok m, s1)) :
    saveMessageToDatabase SaveEnv.quiet now2 md s1 = (.ok m, s1) ∧
    s1.messages.countP (fun x => x.messageId == md.messageId) = 1 ∧
    (Message.findOne md.messageId s = none →
      ∀ c, Chat.findOne md.chatId s = some c →
        ∃ c1, Chat.findOne md.chatId (saveMessageToDatabase SaveEnv.quiet now2 md s1).2 = some c1 ∧
          c1.metadata.messageCount = c.metadata.messageCount + 1 ∧
          c1.metadata.mediaCount = c.metadata.mediaCount + (if truthy md.mediaUrl then 1 else 0)) ∧
    (∀ e, Message.findOne md.messageId s = some e → s1 = s) := by
  have hsecond : Message.findOne md.messageId s1 = some m := by
    rcases saveMessageToDatabase_ok_cases env henv now md s s1 m h with ⟨hf, hs1⟩ | ⟨hf, hm, hs1⟩
    · rw [hs1]; exact hf
    · rw [hs1, findOne_findOneAndInc]
      exact findOne_append_new _ _ _ (by rw [hm]) hf
  have hcall : saveMessageToDatabase SaveEnv.quiet now2 md s1 = (.ok m, s1) := by
    simp [saveMessageToDatabase, SaveEnv.quiet, hsecond]
  refine ⟨hcall, ?_, ?_, ?_⟩
  · rcases saveMessageToDatabase_ok_cases env henv now md s s1 m h with ⟨hf, hs1⟩ | ⟨hf, hm, hs1⟩
    · rw [hs1]
      have hmem := List.mem_of_find?_eq_some hf
      have hkey := List.find?_some hf
      exact countP_key_of_nodup (fun x : Message => x.messageId) md.messageId s.messages hs.2 m hmem
        (by simpa using hkey)
    · have h0 : s.messages.countP (fun x => x.messageId == md.messageId) = 0 := by
        rw [List.countP_eq_zero]
        intro a ha
        have := (findOne_eq_none_iff md.messageId s).mp hf
        simp only [List.any_eq_false] at this
        exact this a ha
      rw [hs1]
      simp [Chat.findOneAndInc, List.countP_append, h0, hm]
  · intro hnone c hc
    rcases saveMessageToDatabase_ok_cases env henv now md s s1 m h with ⟨hf, _⟩ | ⟨_, _, hs1⟩
    · rw [hnone] at hf; cases hf
    · rw [hcall]
      refine ⟨Chat.incCounters now (if truthy md.mediaUrl then 1 else 0) c, ?_, rfl, rfl⟩
      rw [hs1]
      unfold Chat.findOne Chat.findOneAndInc
      simp only
      rw [updateFirst_find? (fun x : Chat => x.chatId == md.chatId)
        (Chat.incCounters now (if truthy md.mediaUrl then 1 else 0)) (fun x hx => hx)]
      unfold Chat.findOne at hc
      rw [hc]; rfl
  · intro e he
    rcases saveMessageToDatabase_ok_cases env henv now md s s1 m h with ⟨_, hs1⟩ | ⟨hf, _, _⟩
    · exact hs1
    · rw [he] at hf; cases hf

theorem updateFirst_map_key {α β : Type} (p : α → Bool) (f : α → α) (key : α → β)
    (hf : ∀ x, p x = true → key (f x) = key x) (l : List α) :
    (updateFirst p f l).map key = l.map key := by
  induction l with
  | nil => rfl
  | cons x xs ih =>
    by_cases hx : p x = true
    · simp [updateFirst, hx, hf x hx]
    · simp [updateFirst, hx, ih]

/-- Witness of C1: `m1` is saved into `storeC1` at instant `150` and again at instant `900`. -/
theorem saveMessageToDatabase_idempotent_witness :
    (storeC1.UniqueKeys ∧
      saveMessageToDatabase SaveEnv.quiet 150 dataM1 storeC1 =
        (.ok { toMessageData := dataM1, createdAt := 150, updatedAt := 150 },
          (saveMessageToDatabase SaveEnv.quiet 150 dataM1 storeC1).2)) ∧
    saveMessageToDatabase SaveEnv.quiet 900 dataM1
        (saveMessageToDatabase SaveEnv.quiet 150 dataM1 storeC1).2 =
      (.ok { toMessageData := dataM1, createdAt := 150, updatedAt := 150 },
        (saveMessageToDatabase SaveEnv.quiet 150 dataM1 storeC1).2) :=
  ⟨⟨by decide, rfl⟩,
    (saveMessageToDatabase_idempotent SaveEnv.quiet (fun _ => rfl) 150 900 dataM1 storeC1 _ _
      (by decide) rfl).1⟩

/-- C4. A successful `saveMessageToDatabase` (no concurrent writer) of a message whose
`messageId` is not stored yet, into a store that holds the chat `c` of its `chatId`: the
message is appended with the fields of `messageData`; the chat's `messageCount` grows by
exactly `1` and its `mediaCount` by `1` when `mediaUrl` is set (truthy) and by `0` otherwise;
every chat with another `chatId` is unchanged. -/
theorem saveMessageToDatabase_counts (env : SaveEnv) (henv : ∀ t, env.concurrent t = t)
    (now : Instant) (md : MessageData) (s s1 : Store) (m : Message) (c : Chat)
    (hc : Chat.findOne md.chatId s = some c)
    (hm : Message.findOne md.messageId s = none)
    (h : saveMessageToDatabase env now md s = (.ok m, s1)) :
    s1.messages = s.messages ++ [m] ∧ m.toMessageData = md ∧
    (∃ c1, Chat.findOne md.chatId s1 = some c1 ∧
      c1.metadata.messageCount = c.metadata.messageCount + 1 ∧
      c1.metadata.mediaCount = c.metadata.mediaCount + (if truthy md.mediaUrl then 1 else 0)) ∧
    s1.chats.filter (fun x => x.chatId != md.chatId) =
      s.chats.filter (fun x => x.chatId != md.chatId) ∧
    s1.chats.map (fun x => x.chatId) = s.chats.map (fun x => x.chatId) := by
  rcases saveMessageToDatabase_ok_cases env henv now md s s1 m h with ⟨hf, _⟩ | ⟨_, hmk, hs1⟩
  · rw [hm] at hf; cases hf
  · refine ⟨by rw [hs1]; rfl, by rw [hmk], ?_, ?_, ?_⟩
    · refine ⟨Chat.incCounters now (if truthy md.mediaUrl then 1 else 0) c, ?_, rfl, rfl⟩
      rw [hs1]
      unfold Chat.findOne Chat.findOneAndInc
      simp only
      rw [updateFirst_find? (fun x : Chat => x.chatId == md.chatId)
        (Chat.incCounters now (if truthy md.mediaUrl then 1 else 0)) (fun x hx => hx)]
      unfold Chat.findOne at hc
      rw [hc]; rfl
    · rw [hs1]
      exact updateFirst_filter_not (fun x : Chat => x.chatId == md.chatId)
        (Chat.incCounters now (if truthy md.mediaUrl then 1 else 0)) (fun x hx => hx) s.chats
    · rw [hs1]
      exact updateFirst_map_key (fun x : Chat => x.chatId == md.chatId)
        (Chat.incCounters now (if truthy md.mediaUrl then 1 else 0)) (fun x : Chat => x.chatId)
        (fun x _ => rfl) s.chats

/-- Witness of C4: `m1` is saved into `storeC1`, which holds chat `c1` and no message. -/
theorem saveMessageToDatabase_counts_witness :
    (Chat.findOne dataM1.chatId storeC1).isSome = true ∧
    Message.findOne dataM1.messageId storeC1 = none ∧
    (saveMessageToDatabase SaveEnv.quiet 150 dataM1 storeC1).2.messages =
      storeC1.messages ++ [{ toMessageData := dataM1, createdAt := 150, updatedAt := 150 }] :=
  ⟨by decide, by decide,
    (saveMessageToDatabase_counts SaveEnv.quiet (fun _ => rfl) 150 dataM1 storeC1 _ _
      (Chat.ofChatData 100 (chatData 100 chatC1)) (by decide) (by decide) rfl).1⟩

/-! ## Chat upsert and the derived counters -/

/-- The upsert of a chat that is already stored leaves it with both counters at `0`, whatever
they were. -/
theorem saveChatToDatabase_counters_zero (now : Instant) (chat : RawChat) (s : Store)
    (c : Chat) (hc : Chat.findOne chat.id s = some c) :
    (saveChatToDatabase false now chat s).2.counters chat.id = some (0, 0) := by
  have hany : s.chats.any (fun x => x.chatId == chat.id) = true := by
    unfold Chat.findOne at hc
    have h1 := List.mem_of_find?_eq_some hc
    have h2 := List.find?_some hc
    exact List.any_eq_true.mpr ⟨c, h1, h2⟩
  unfold saveChatToDatabase Chat.upsert Store.counters Chat.findOne
  have hid : (chatData now chat).chatId = chat.id := rfl
  simp only [hid, hany, Bool.false_eq_true, if_false, if_true]
  rw [updateFirst_find? (fun x : Chat => x.chatId == chat.id)
    (Chat.setChatData now (chatData now chat)) (fun x _ => by simp [Chat.setChatData, chatData])]
  unfold Chat.findOne at hc
  rw [hc]
  rfl

/-- C2 (the code at the failing input). Chat `c1` is stored with `messageCount = 2` and
`mediaCount = 1`; after `saveChatToDatabase` of the same chat both counters are `0`, while
the two messages are still stored. -/
theorem saveChatToDatabase_resets_counters :
    storeCounted.counters "c1" = some (2, 1) ∧
    (saveChatToDatabase false 200 chatC1 storeCounted).2.counters "c1" = some (0, 0) ∧
    ((saveChatToDatabase false 200 chatC1 storeCounted).2.messagesOf "c1").length = 2 := by
  decide

/-- C3 (the code at the failing input). Starting from the empty store, ingesting `m1` of chat
`c1` gives `messageCount = 1` and `mediaCount = 0`; ingesting the identical `m1` again leaves
one stored message and sets `messageCount` to `0`; and ingesting `m1` and then `m2` leaves two
stored messages of `c1` with `messageCount = 1`. -/
theorem ingestAll_counter_invariant_broken :
    (ingestAll [(messageM1, chatC1, contactAlice, .nothing, 100)] Store.empty).counters "c1"
      = some (1, 0) ∧
    ((ingestAll [(messageM1, chatC1, contactAlice, .nothing, 100),
        (messageM1, chatC1, contactAlice, .nothing, 200)] Store.empty).messagesOf "c1").length
      = 1 ∧
    (ingestAll [(messageM1, chatC1, contactAlice, .nothing, 100),
        (messageM1, chatC1, contactAlice, .nothing, 200)] Store.empty).counters "c1"
      = some (0, 0) ∧
    ((ingestAll [(messageM1, chatC1, contactAlice, .nothing, 100),
        (messageM2, chatC1, contactAlice, .fetched "image/jpeg" "AAAA", 160)]
        Store.empty).messagesOf "c1").length = 2 ∧
    (ingestAll [(messageM1, chatC1, contactAlice, .nothing, 100),
        (messageM2, chatC1, contactAlice, .fetched "image/jpeg" "AAAA", 160)]
        Store.empty).counters "c1" = some (1, 1) := by
  decide

/-! ## The message handler -/

theorem saveChatToDatabase_fst (down : Bool) (now : Instant) (chat : RawChat) (s : Store) :
    (saveChatToDatabase down now chat s).1 = .ok () := by
  unfold saveChatToDatabase
  cases Chat.upsert down now (chatData now chat) s <;> rfl

theorem saveChatToDatabase_messages (down : Bool) (now : Instant) (chat : RawChat) (s : Store) :
    (saveChatToDatabase down now chat s).2.messages = s.messages := by
  unfold saveChatToDatabase Chat.upsert
  cases down
  · by_cases hany : (s.chats.any fun c => c.chatId == (chatData now chat).chatId) = true
    · simp only [hany, Bool.false_eq_true, if_false, if_true]
    · simp only [hany, Bool.false_eq_true, if_false]
  · rfl

theorem onMessage_eq (env : HandlerEnv) (now : Instant) (message : RawMessage) (chat : RawChat)
    (contact : RawContact) (s : Store) :
    onMessage env now message chat contact s =
      saveMessageToDatabase env.save now
        (attachMedia env.mediaDir now message env.media (messageData message chat contact))
        (saveChatToDatabase env.chatUpsertFails now chat s).2 := by
  unfold onMessage
  have h := saveChatToDatabase_fst env.chatUpsertFails now chat s
  generalize saveChatToDatabase env.chatUpsertFails now chat s = r at h ⊢
  obtain ⟨r1, r2⟩ := r
  simp only at h
  subst h
  rfl

/-- On a healthy database without other writers, a valid record with a new `messageId` is
always stored: the call returns the new document and the store with the document appended
and the counters of the owning chat incremented. -/
theorem saveMessageToDatabase_quiet_new (now : Instant) (md : MessageData) (s : Store)
    (hvalid : validateMessage md = .ok ())
    (hnew : Message.findOne md.messageId s = none) :
    saveMessageToDatabase SaveEnv.quiet now md s =
      (.ok { toMessageData := md, createdAt := now, updatedAt := now },
        Chat.findOneAndInc now md.chatId (if truthy md.mediaUrl then 1 else 0)
          { s with messages := s.messages ++
              [{ toMessageData := md, createdAt := now, updatedAt := now }] }) := by
  have hnone := (findOne_eq_none_iff md.messageId s).mp hnew
  unfold saveMessageToDatabase Message.save
  simp [SaveEnv.quiet, hnew, hvalid, hnone]

/-- When the message has media and the download failed or delivered nothing, the record that
the handler saves is the text record, without any media field. -/
theorem attachMedia_unavailable (mediaDir : String) (now : Instant) (message : RawMessage)
    (fetch : MediaFetch) (md : MessageData) (hf : fetch = .failed ∨ fetch = .nothing) :
    attachMedia mediaDir now message fetch md = md := by
  unfold attachMedia
  rcases hf with hf | hf <;> subst hf <;> simp

/-- Media failure does not stop the text from being stored: on a healthy database, a valid
message event with media whose download failed, and whose `messageId` is new, is stored with
the fields of its text record and no media field, and the handler ends without error. -/
theorem onMessage_media_failure_persists (now : Instant) (message : RawMessage)
    (chat : RawChat) (contact : RawContact) (fetch : MediaFetch) (s : Store)
    (hf : fetch = .failed ∨ fetch = .nothing)
    (hvalid : validateMessage (messageData message chat contact) = .ok ())
    (hnew : Message.findOne message.id s = none) :
    ∃ m, (onMessage (HandlerEnv.quiet fetch) now message chat contact s).1 = .ok m ∧
      m.toMessageData = messageData message chat contact ∧
      m.mediaUrl = none ∧ m.mediaType = none ∧ m.mediaSize = none ∧
      (onMessage (HandlerEnv.quiet fetch) now message chat contact s).2.messages =
        s.messages ++ [m] := by
  have hnew1 : Message.findOne (messageData message chat contact).messageId
      (saveChatToDatabase false now chat s).2 = none := by
    unfold Message.findOne at hnew ⊢
    rw [saveChatToDatabase_messages]
    exact hnew
  refine ⟨{ toMessageData := messageData message chat contact, createdAt := now, updatedAt := now },
    ?_, rfl, rfl, rfl, rfl, ?_⟩
  · rw [onMessage_eq]
    simp only [HandlerEnv.quiet, attachMedia_unavailable _ _ _ _ _ hf]
    rw [saveMessageToDatabase_quiet_new now _ _ hvalid hnew1]
  · rw [onMessage_eq]
    simp only [HandlerEnv.quiet, attachMedia_unavailable _ _ _ _ _ hf]
    rw [saveMessageToDatabase_quiet_new now _ _ hvalid hnew1]
    simp only [Chat.findOneAndInc]
    rw [saveChatToDatabase_messages]

/-- C5 (the code at the failing input). Chat `c1` is stored with one message and
`messageCount = 1`. The handler receives `m2`, which has media, and the download fails. The
handler ends without error and `m2` is stored with its text fields and without media fields,
but the chat's `messageCount` is `1` afterwards, not `2`, although two messages of `c1` are
stored. -/
theorem onMessage_media_failure_counters :
    storeC1M1.counters "c1" = some (1, 0) ∧
    (onMessage (HandlerEnv.quiet .failed) 200 messageM2 chatC1 contactAlice storeC1M1).1 =
      .ok { toMessageData := messageData messageM2 chatC1 contactAlice,
            createdAt := 200, updatedAt := 200 } ∧
    (messageData messageM2 chatC1 contactAlice).mediaUrl = none ∧
    ((onMessage (HandlerEnv.quiet .failed) 200 messageM2 chatC1 contactAlice
      storeC1M1).2.messagesOf "c1").length = 2 ∧
    (onMessage (HandlerEnv.quiet .failed) 200 messageM2 chatC1 contactAlice
      storeC1M1).2.counters "c1" = some (1, 0) := by
  refine ⟨by decide, rfl, rfl, by decide, by decide⟩

/-! ## Storage failures -/

/-- A failure of the insert makes `saveMessageToDatabase` reject: the error of `message.save()`
is rethrown, and the chats are not touched. -/
theorem saveMessageToDatabase_insert_failure (env : SaveEnv) (now : Instant)
    (md : MessageData) (s : Store) (e : DbError) (hfind : env.findFails = false)
    (hnew : Message.findOne md.messageId s = none)
    (hins : Message.save env.insertFails now md (env.concurrent s) = .error e) :
    saveMessageToDatabase env now md s = (.error e, env.concurrent s) := by
  unfold saveMessageToDatabase
  simp [hfind, hnew, hins]

/-- C6 (the code at the failing input). When the database call of the chat upsert fails,
`saveChatToDatabase` still resolves normally and leaves the store as it was; the handler
therefore goes on to the message write: with the failing upsert on the empty store it stores
`m1` although no chat `c1` exists. -/
theorem saveChatToDatabase_swallows_failure :
    (∀ (now : Instant) (chat : RawChat) (s : Store),
      saveChatToDatabase true now chat s = (.ok (), s)) ∧
    (onMessage upsertFailsEnv 100 messageM1 chatC1 contactAlice Store.empty).1 =
      .ok { toMessageData := dataM1, createdAt := 100, updatedAt := 100 } ∧
    (onMessage upsertFailsEnv 100 messageM1 chatC1 contactAlice Store.empty).2.chats = [] ∧
    ((onMessage upsertFailsEnv 100 messageM1 chatC1 contactAlice
      Store.empty).2.messagesOf "c1").length = 1 := by
  refine ⟨fun now chat s => rfl, rfl, by decide, by decide⟩

/-! ## Duplicate key on insert -/

/-- C7 (counterexample). The existence check on `storeC1` finds no message `m1`; another
writer stores `m1` before the insert; the insert then fails with a duplicate-key error and
`saveMessageToDatabase` rejects with that error: it does not return the stored record. -/
theorem saveMessageToDatabase_race_rejects :
    Message.findOne dataM1.messageId storeC1 = none ∧
    Message.save false 150 dataM1 (raceEnv.concurrent storeC1) = .error (.duplicateKey "m1") ∧
    (saveMessageToDatabase raceEnv 150 dataM1 storeC1).1 = .error (.duplicateKey "m1") ∧
    ¬ ∃ m, (saveMessageToDatabase raceEnv 150 dataM1 storeC1).1 = .ok m := by
  refine ⟨by decide, rfl, rfl, ?_⟩
  rintro ⟨m, hm⟩
  have h : (saveMessageToDatabase raceEnv 150 dataM1 storeC1).1 = .error (.duplicateKey "m1") := rfl
  rw [h] at hm
  cases hm

/-- C7 (amended). When the existence check finds no message with the `messageId` and the
insert then fails with a duplicate-key error, `saveMessageToDatabase` rejects with that
duplicate-key error; the store is the one the concurrent writers left, so this call
increments no counter. -/
theorem saveMessageToDatabase_duplicateKey (env : SaveEnv) (now : Instant)
    (md : MessageData) (s : Store) (k : String) (hfind : env.findFails = false)
    (hnew : Message.findOne md.messageId s = none)
    (hins : Message.save env.insertFails now md (env.concurrent s) = .error (.duplicateKey k)) :
    saveMessageToDatabase env now md s = (.error (.duplicateKey k), env.concurrent s) ∧
    (saveMessageToDatabase env now md s).2.chats = (env.concurrent s).chats := by
  have h : saveMessageToDatabase env now md s = (.error (.duplicateKey k), env.concurrent s) := by
    unfold saveMessageToDatabase
    simp [hfind, hnew, hins]
  exact ⟨h, by rw [h]⟩

/-- Witness of C7: another writer stores `m1` between the check and the insert; the counters
of `c1` are those the other writer left. -/
theorem saveMessageToDatabase_duplicateKey_witness :
    (saveMessageToDatabase raceEnv 150 dataM1 storeC1).2.counters "c1" = some (1, 0) ∧
    saveMessageToDatabase raceEnv 150 dataM1 storeC1 =
      (.error (.duplicateKey "m1"), raceEnv.concurrent storeC1) :=
  ⟨by decide,
    (saveMessageToDatabase_duplicateKey raceEnv 150 dataM1 storeC1 "m1" rfl (by decide) rfl).1⟩

/-! ## Deleting a chat -/

theorem eraseP_eq_filter_of_nodup {α : Type} (key : α → String) (k : String) (l : List α)
    (hl : (l.map key).Nodup) :
    l.eraseP (fun x => key x == k) = l.filter (fun x => key x != k) := by
  induction l with
  | nil => rfl
  | cons x xs ih =>
    simp only [List.map_cons, List.nodup_cons] at hl
    by_cases hx : key x = k
    · have hfil : xs.filter (fun y => key y != k) = xs := by
        rw [List.filter_eq_self]
        intro y hy
        have : key y ≠ k := by
          intro hyk
          exact hl.1 (List.mem_map.mpr ⟨y, hy, by rw [hyk, hx]⟩)
        simpa using this
      simp [List.eraseP_cons, List.filter_cons, hx, hfil]
    · simp [List.eraseP_cons, List.filter_cons, hx, ih hl.2]

/-- C8. On a store that respects the unique indexes, a successful `deleteChat(c)` leaves no
chat and no message with `chatId = c`, and leaves every other chat and message as it was, in
the same order: the chats and the messages afterwards are exactly those with another
`chatId`. -/
theorem deleteChat_removes (f1 f2 : Bool) (c : String) (s s1 : Store) (b : Bool)
    (hs : s.UniqueKeys)
    (h : deleteChat f1 f2 c s = (.ok b, s1)) :
    (∀ x ∈ s1.chats, x.chatId ≠ c) ∧ (∀ m ∈ s1.messages, m.chatId ≠ c) ∧
    s1.chats = s.chats.filter (fun x => x.chatId != c) ∧
    s1.messages = s.messages.filter (fun m => m.chatId != c) := by
  unfold deleteChat at h
  cases f1 <;> cases f2 <;> simp at h
  obtain ⟨_, h2⟩ := h
  have hchats : s1.chats = s.chats.filter (fun x => x.chatId != c) := by
    rw [← h2]
    exact eraseP_eq_filter_of_nodup (fun x : Chat => x.chatId) c s.chats hs.1
  have hmsgs : s1.messages = s.messages.filter (fun m => m.chatId != c) := by
    rw [← h2]
  refine ⟨?_, ?_, hchats, hmsgs⟩
  · intro x hx
    rw [hchats] at hx
    simpa using (List.mem_filter.mp hx).2
  · intro m hm
    rw [hmsgs] at hm
    simpa using (List.mem_filter.mp hm).2

/-- Witness of C8: chat `c1` with its two messages is deleted from `storeCounted`. -/
theorem deleteChat_removes_witness :
    storeCounted.UniqueKeys ∧
    (deleteChat false false "c1" storeCounted).1 = .ok true ∧
    (deleteChat false false "c1" storeCounted).2.messages =
      storeCounted.messages.filter (fun m => m.chatId != "c1") :=
  ⟨by decide, rfl,
    (deleteChat_removes false false "c1" storeCounted _ true (by decide) rfl).2.2.2⟩

/-- C9 (counterexample). The store holds message `m1` of chat `c1` but no chat `c1`.
`deleteChat("c1")` removes the message and returns `false`. -/
theorem deleteChat_false_after_deleting :
    (storeOrphan.messagesOf "c1").length = 1 ∧
    (deleteChat false false "c1" storeOrphan).1 = .ok false ∧
    ((deleteChat false false "c1" storeOrphan).2.messagesOf "c1").length = 0 ∧
    ¬ ((deleteChat false false "c1" storeOrphan).1 = .ok true ↔
        (deleteChat false false "c1" storeOrphan).2 ≠ storeOrphan) := by
  refine ⟨by decide, rfl, by decide, ?_⟩
  intro h
  have h1 : (deleteChat false false "c1" storeOrphan).2 ≠ storeOrphan := by decide
  have h2 := h.mpr h1
  have h3 : (deleteChat false false "c1" storeOrphan).1 = .ok false := rfl
  rw [h3] at h2
  cases h2

/-- C9 (amended). On a healthy database `deleteChat(c)` never rejects, and it returns `true`
if and only if a chat with `chatId = c` was stored, which is if and only if the call removed
a chat; on an absent chat it returns `false` and leaves the chats as they were. -/
theorem deleteChat_reports_chat (c : String) (s : Store) :
    ∃ b, (deleteChat false false c s).1 = .ok b ∧
      (b = true ↔ ∃ x ∈ s.chats, x.chatId = c) ∧
      (b = true ↔ (deleteChat false false c s).2.chats.length + 1 = s.chats.length) ∧
      (b = false → (deleteChat false false c s).2.chats = s.chats) := by
  refine ⟨s.chats.any (fun x => x.chatId == c), rfl, ?_, ?_, ?_⟩
  · simp [List.any_eq_true]
  · simp only [deleteChat, Bool.false_eq_true, if_false]
    constructor
    · intro h
      obtain ⟨x, hx, hp⟩ := List.any_eq_true.mp h
      have hlen := List.length_eraseP_of_mem (p := fun x : Chat => x.chatId == c) hx hp
      have hpos : 0 < s.chats.length := List.length_pos_of_mem hx
      omega
    · intro h
      by_contra hb
      have hnone : ∀ x ∈ s.chats, ¬ ((fun x : Chat => x.chatId == c) x = true) := by
        intro x hx hp
        exact hb (List.any_eq_true.mpr ⟨x, hx, hp⟩)
      rw [List.eraseP_of_forall_not hnone] at h
      omega
  · intro hb
    simp only [deleteChat, Bool.false_eq_true, if_false]
    apply List.eraseP_of_forall_not
    intro x hx hp
    have : s.chats.any (fun x => x.chatId == c) = true := List.any_eq_true.mpr ⟨x, hx, hp⟩
    rw [hb] at this
    cases this

/-! ## Search -/

theorem parseRegExp_literal (cs : List Char)
    (h : ∀ c ∈ cs, c ∉ regExpSpecial ∧ isAscii c = true) :
    parseRegExp cs = some (cs.map RegExpAtom.literal) := by
  induction cs with
  | nil => rfl
  | cons c cs ih =>
    obtain ⟨hc, hasc⟩ := h c (List.mem_cons_self c cs)
    have hdot : c ≠ '.' := by
      intro hd
      apply hc
      rw [hd]
      decide
    have hrest := ih (fun d hd => h d (List.mem_cons_of_mem c hd))
    simp [parseRegExp, parseAtom, hdot, hc, hasc, hrest]

theorem matchHere_literal (p t : List Char) (hp : ∀ c ∈ p, isAscii c = true)
    (ht : ∀ c ∈ t, isAscii c = true) :
    matchHere (p.map RegExpAtom.literal) t =
      some (decide (p.map Char.toLower <+: t.map Char.toLower)) := by
  induction p generalizing t with
  | nil => simp [matchHere]
  | cons a as ih =>
    cases t with
    | nil => simp [matchHere]
    | cons c cs =>
      have ha := hp a (List.mem_cons_self a as)
      have hc := ht c (List.mem_cons_self c cs)
      have hrec := ih cs (fun d hd => hp d (List.mem_cons_of_mem a hd))
        (fun d hd => ht d (List.mem_cons_of_mem c hd))
      simp only [List.map_cons, matchHere, RegExpAtom.accepts, ha, hc, if_true, hrec,
        List.cons_prefix_cons]
      congr 1
      rw [Bool.eq_iff_iff]
      simp

theorem matchAnywhere_literal (p t : List Char) (hp : ∀ c ∈ p, isAscii c = true)
    (ht : ∀ c ∈ t, isAscii c = true) :
    matchAnywhere (p.map RegExpAtom.literal) t =
      some (decide (p.map Char.toLower <:+: t.map Char.toLower)) := by
  induction t with
  | nil =>
    simp only [matchAnywhere]
    rw [matchHere_literal p [] hp ht]
    congr 1
    rw [Bool.eq_iff_iff]
    simp
  | cons c cs ih =>
    have hrec := ih (fun d hd => ht d (List.mem_cons_of_mem c hd))
    simp only [matchAnywhere, matchHere_literal p (c :: cs) hp ht, hrec, List.map_cons,
      List.infix_cons_iff]
    congr 1
    rw [Bool.eq_iff_iff]
    simp

theorem bodyMatches_literal (term : String) (m : Message)
    (hterm : ∀ c ∈ term.toList, isAscii c = true) (hbody : m.asciiBody = true) :
    bodyMatches (term.toList.map RegExpAtom.literal) m = some (bodyContains term m) := by
  unfold bodyMatches bodyContains containsIgnoreCase
  unfold Message.asciiBody at hbody
  cases hb : m.body with
  | none => rfl
  | some b =>
    rw [hb] at hbody
    simp only at hbody ⊢
    exact matchAnywhere_literal term.toList b.toList hterm
      (fun c hc => (List.all_eq_true.mp hbody) c hc)

theorem mem_uniqueIds (l : List String) (y : String) : y ∈ uniqueIds l ↔ y ∈ l := by
  induction l with
  | nil => simp [uniqueIds]
  | cons x xs ih =>
    simp only [uniqueIds, List.mem_cons, List.mem_filter, ih]
    by_cases hy : y = x
    · simp [hy]
    · simp [hy]

theorem mem_sortByTimestampDesc (ms : List Message) (m : Message) :
    m ∈ sortByTimestampDesc ms ↔ m ∈ ms :=
  (List.perm_insertionSort _ ms).mem_iff

/-- C10 (counterexample). After chat `c1` and message `m1` with body `hi` were ingested, the
search for the term `.` returns chat `c1` annotated with `m1`, although the body `hi` does
not contain `.` as a substring: the term is read as a regular expression. -/
theorem searchMessages_dot_matches :
    ¬ containsIgnoreCase "." "hi" ∧
    (storeC1M1.messages.map (fun m => (m.messageId, m.chatId, m.body))) =
      [("m1", "c1", some "hi")] ∧
    (searchMessages "." storeC1M1).map
      (fun r => r.map (fun e => (e.chat.chatId, e.messages.map (fun m => m.messageId)))) =
      some [("c1", ["m1"])] := by
  decide

/-- C10 (amended). For a search term of ASCII characters without regular-expression special
characters, and a store whose message bodies are ASCII text, `searchMessages` returns exactly
the stored chats, in stored order, that own at least one message whose body contains the term
as a substring ignoring letter case, and each returned chat is annotated with exactly its own
messages whose body contains the term ignoring case (a permutation of them, latest first). -/
theorem searchMessages_literal (term : String) (s : Store)
    (hterm : ∀ c ∈ term.toList, c ∉ regExpSpecial ∧ isAscii c = true)
    (hbodies : ∀ m ∈ s.messages, m.asciiBody = true) :
    ∃ r, searchMessages term s = some r ∧
      r.map (fun e => e.chat) =
        s.chats.filter (fun c =>
          decide (∃ m ∈ s.messages, m.chatId = c.chatId ∧ bodyContains term m = true)) ∧
      ∀ e ∈ r,
        e.messages.Perm
          (s.messages.filter (fun m => m.chatId == e.chat.chatId && bodyContains term m)) ∧
        e.messages.Sorted (fun a b => b.timestamp ≤ a.timestamp) := by
  have hparse := parseRegExp_literal term.toList hterm
  have hmatch : ∀ m ∈ s.messages,
      bodyMatches (term.toList.map RegExpAtom.literal) m = some (bodyContains term m) :=
    fun m hm => bodyMatches_literal term m (fun c hc => (hterm c hc).2) (hbodies m hm)
  have hall : s.messages.all
      (fun m => (bodyMatches (term.toList.map RegExpAtom.literal) m).isSome) = true := by
    rw [List.all_eq_true]
    intro m hm
    rw [hmatch m hm]
    rfl
  have hfilter : s.messages.filter
      (fun m => bodyMatches (term.toList.map RegExpAtom.literal) m == some true) =
      s.messages.filter (bodyContains term) := by
    apply List.filter_congr
    intro m hm
    rw [hmatch m hm]
    cases bodyContains term m <;> rfl
  refine ⟨_, by simp only [searchMessages, hparse, hall, if_true, hfilter]; rfl, ?_, ?_⟩
  · rw [List.map_map]
    simp only [Function.comp_def, List.map_id']
    apply List.filter_congr
    intro c _
    rw [Bool.eq_iff_iff]
    simp only [List.contains, List.elem_eq_mem, decide_eq_true_eq, mem_uniqueIds, List.mem_map,
      mem_sortByTimestampDesc, List.mem_filter, decide_eq_true_eq]
    constructor
    · rintro ⟨m, ⟨hm, hb⟩, hc⟩
      exact ⟨m, hm, hc, hb⟩
    · rintro ⟨m, hm, hc, hb⟩
      exact ⟨m, ⟨hm, hb⟩, hc⟩
  · intro e he
    obtain ⟨c, _, hc⟩ := List.mem_map.mp he
    subst hc
    simp only
    constructor
    · have hperm : (sortByTimestampDesc (s.messages.filter (bodyContains term))).Perm
          (s.messages.filter (bodyContains term)) := List.perm_insertionSort _ _
      have h2 := hperm.filter (fun m => m.chatId == c.chatId)
      rw [List.filter_filter] at h2
      exact h2
    · exact (List.sorted_insertionSort _ _).filter _

/-- Witness of C10: the search for `hi` after `c1` and `m1` were ingested returns `c1`
annotated with `m1` only. -/
theorem searchMessages_literal_witness :
    (∀ c ∈ "hi".toList, c ∉ regExpSpecial ∧ isAscii c = true) ∧
    (∀ m ∈ storeC1M1.messages, m.asciiBody = true) ∧
    (searchMessages "hi" storeC1M1).map
      (fun r => r.map (fun e => (e.chat.chatId, e.messages.map (fun m => m.messageId)))) =
      some [("c1", ["m1"])] ∧
    (searchMessages "hi" storeC1M1).isSome = true :=
  ⟨by decide, by decide, by decide, by
    obtain ⟨r, h, _⟩ := searchMessages_literal "hi" storeC1M1 (by decide) (by decide)
    rw [h]; rfl⟩

/-! ## Normalisation -/

/-- C11 (counterexample). For a message event whose `timestamp` is `8640000000001` seconds,
`new Date(timestamp * 1000)` is `Invalid Date`: the record's `timestamp` is not the instant
`timestamp * 1000` milliseconds after the epoch, and the handler's save fails validation. -/
theorem messageData_invalid_date :
    messageFarFuture.timestamp * 1000 = 8640000000001000 ∧
    (attachMedia "uploads/media" 100 messageFarFuture .nothing
      (messageData messageFarFuture chatC1 contactAlice)).timestamp = .invalid ∧
    (attachMedia "uploads/media" 100 messageFarFuture .nothing
      (messageData messageFarFuture chatC1 contactAlice)).timestamp ≠
        .time (messageFarFuture.timestamp * 1000) ∧
    (onMessage (HandlerEnv.quiet .nothing) 100 messageFarFuture chatC1 contactAlice
      Store.empty).1 = .error (.validation "timestamp") := by
  refine ⟨by decide, by decide, by decide, rfl⟩

/-- C11 (amended). The record that the handler builds for a message event (the literal
`messageData` followed by the media branch): when the event's seconds times `1000` do not
exceed the largest time value of a `Date`, `timestamp` is the instant of that many
milliseconds, and otherwise it is `Invalid Date`; `isReply` is `hasQuotedMsg`, `replyTo` is
`quotedMsgId` when `hasQuotedMsg` holds and `null` otherwise, `messageId`, `chatId`, `to`,
`type` and `isForwarded` are copied, and for an event with `hasMedia = false` none of
`mediaUrl`, `mediaType`, `mediaSize` is set, whatever the media download would deliver. -/
theorem messageData_fields (mediaDir : String) (now : Instant) (message : RawMessage)
    (chat : RawChat) (contact : RawContact) (fetch : MediaFetch) :
    (message.timestamp * 1000 ≤ maxTimeValue →
      (attachMedia mediaDir now message fetch (messageData message chat contact)).timestamp =
        .time (message.timestamp * 1000)) ∧
    (maxTimeValue < message.timestamp * 1000 →
      (attachMedia mediaDir now message fetch (messageData message chat contact)).timestamp =
        .invalid) ∧
    (attachMedia mediaDir now message fetch (messageData message chat contact)).isReply =
      message.hasQuotedMsg ∧
    (attachMedia mediaDir now message fetch (messageData message chat contact)).replyTo =
      (if message.hasQuotedMsg then message.quotedMsgId else none) ∧
    (attachMedia mediaDir now message fetch (messageData message chat contact)).messageId =
      message.id ∧
    (attachMedia mediaDir now message fetch (messageData message chat contact)).chatId =
      chat.id ∧
    (attachMedia mediaDir now message fetch (messageData message chat contact)).to_ =
      message.to_ ∧
    (attachMedia mediaDir now message fetch (messageData message chat contact)).type =
      message.type ∧
    (attachMedia mediaDir now message fetch (messageData message chat contact)).isForwarded =
      message.isForwarded ∧
    (message.hasMedia = false →
      (attachMedia mediaDir now message fetch (messageData message chat contact)).mediaUrl = none ∧
      (attachMedia mediaDir now message fetch (messageData message chat contact)).mediaType = none ∧
      (attachMedia mediaDir now message fetch (messageData message chat contact)).mediaSize = none) := by
  have hts : (attachMedia mediaDir now message fetch
      (messageData message chat contact)).timestamp = newDate (message.timestamp * 1000) := by
    unfold attachMedia
    cases message.hasMedia
    · simp [messageData]
    · cases fetch <;> simp [messageData]
  refine ⟨?_, ?_, ?_⟩
  · intro h
    rw [hts]
    simp [newDate, h]
  · intro h
    rw [hts]
    have h2 : ¬ message.timestamp * 1000 ≤ maxTimeValue := by omega
    simp [newDate, h2]
  · unfold attachMedia
    cases hm : message.hasMedia
    · simp [messageData]
    · cases fetch <;> simp [messageData]

/-- Witness of C11: message `m1`, which has no media and a timestamp within the range. -/
theorem messageData_fields_witness :
    messageM1.hasMedia = false ∧
    messageM1.timestamp * 1000 ≤ maxTimeValue ∧
    (attachMedia "uploads/media" 100 messageM1 (.fetched "image/jpeg" "AAAA")
      (messageData messageM1 chatC1 contactAlice)).mediaUrl = none ∧
    (attachMedia "uploads/media" 100 messageM1 (.fetched "image/jpeg" "AAAA")
      (messageData messageM1 chatC1 contactAlice)).timestamp = .time 1700000000000 :=
  ⟨rfl, by decide,
    ((messageData_fields "uploads/media" 100 messageM1 chatC1 contactAlice
      (.fetched "image/jpeg" "AAAA")).2.2.2.2.2.2.2.2.2 rfl).1,
    (messageData_fields "uploads/media" 100 messageM1 chatC1 contactAlice
      (.fetched "image/jpeg" "AAAA")).1 (by decide)⟩

/-- C12 (counterexample). Two normalisations of the same raw chat `c1`, at the instants `100`
and `200`, give different records: they differ in `metadata.createdAt`. -/
theorem chatData_depends_on_clock :
    chatData 100 chatC1 ≠ chatData 200 chatC1 ∧
    (chatData 100 chatC1).metadata.createdAt = 100 ∧
    (chatData 200 chatC1).metadata.createdAt = 200 := by
  decide

/-- C12 (amended). The record built by the handler for an event without media does not
depend on the instant of the normalisation (nor on what a download would deliver). The chat
record built by `saveChatToDatabase` depends on the instant only through
`metadata.createdAt`, which is that instant: two normalisations of the same raw chat agree
once `metadata.createdAt` is set to the same value. -/
theorem normalization_deterministic (mediaDir : String) (now1 now2 : Instant)
    (message : RawMessage) (chat : RawChat) (contact : RawContact) (fetch1 fetch2 : MediaFetch)
    (hmedia : message.hasMedia = false) :
    attachMedia mediaDir now1 message fetch1 (messageData message chat contact) =
      attachMedia mediaDir now2 message fetch2 (messageData message chat contact) ∧
    (chatData now1 chat).metadata.createdAt = now1 ∧
    chatData now1 chat =
      { chatData now2 chat with
        metadata := { (chatData now2 chat).metadata with createdAt := now1 } } := by
  refine ⟨?_, rfl, rfl⟩
  unfold attachMedia
  simp [hmedia]

/-- Witness of C12: message `m1`, normalised at the instants `100` and `200`. -/
theorem normalization_deterministic_witness :
    messageM1.hasMedia = false ∧
    attachMedia "uploads/media" 100 messageM1 .failed (messageData messageM1 chatC1 contactAlice) =
      attachMedia "uploads/media" 200 messageM1 (.fetched "image/jpeg" "AAAA")
        (messageData messageM1 chatC1 contactAlice) :=
  ⟨rfl,
    (normalization_deterministic "uploads/media" 100 200 messageM1 chatC1 contactAlice .failed
      (.fetched "image/jpeg" "AAAA") rfl).1⟩

/-! ## Listing queries -/

theorem sorted_sortByTimestampDesc (ms : List Message) :
    (sortByTimestampDesc ms).Sorted (fun a b => b.timestamp ≤ a.timestamp) :=
  List.sorted_insertionSort _ ms

theorem perm_sortByTimestampDesc (ms : List Message) :
    (sortByTimestampDesc ms).Perm ms :=
  List.perm_insertionSort _ ms

/-- Cutting a list that is sorted latest-first at a positive limit keeps a prefix: the kept
part and the dropped part make up the list, and nothing dropped is later than something
kept. -/
theorem limitTo_sorted (n : Nat) (hn : 1 ≤ n) (l : List Message)
    (hl : l.Sorted (fun a b => b.timestamp ≤ a.timestamp)) :
    (limitTo n l).length = min n l.length ∧
    (limitTo n l).Sorted (fun a b => b.timestamp ≤ a.timestamp) ∧
    limitTo n l ++ l.drop n = l ∧
    ∀ m ∈ limitTo n l, ∀ x ∈ l.drop n, x.timestamp ≤ m.timestamp := by
  have hne : n ≠ 0 := by omega
  have hlim : limitTo n l = l.take n := by simp [limitTo, hne]
  rw [hlim]
  refine ⟨List.length_take n l, ?_, List.take_append_drop n l, ?_⟩
  · exact List.Pairwise.sublist (List.take_sublist n l) hl
  · have h2 : (l.take n ++ l.drop n).Pairwise (fun a b => b.timestamp ≤ a.timestamp) := by
      rw [List.take_append_drop]; exact hl
    intro m hm x hx
    exact (List.pairwise_append.mp h2).2.2 m hm x hx

/-- C13. For a limit `n ≥ 1`, `getChatMessages(c, n)` returns `min(n, k)` messages, `k` being
the number of stored messages of `c`; each of them is a stored message of `c`; they are
ordered latest first; together with the omitted messages they are exactly the stored messages
of `c`, and no omitted message is later than a returned one. `getChatById(c)` is `null` when
no chat `c` is stored, and otherwise the chat with `getChatMessages(c, 50)`. -/
theorem getChatMessages_latest (c : String) (n : Nat) (s : Store) (hn : 1 ≤ n) :
    (getChatMessages c n s).length = min n (s.messagesOf c).length ∧
    (∀ m ∈ getChatMessages c n s, m.chatId = c ∧ m ∈ s.messages) ∧
    (getChatMessages c n s).Sorted (fun a b => b.timestamp ≤ a.timestamp) ∧
    (∃ omitted, (getChatMessages c n s ++ omitted).Perm (s.messagesOf c) ∧
      ∀ m ∈ getChatMessages c n s, ∀ x ∈ omitted, x.timestamp ≤ m.timestamp) ∧
    getChatById c s =
      (Chat.findOne c s).map (fun chat =>
        { chat := chat, messages := getChatMessages c 50 s }) := by
  have hsorted := sorted_sortByTimestampDesc (s.messages.filter (fun m => m.chatId == c))
  have hperm := perm_sortByTimestampDesc (s.messages.filter (fun m => m.chatId == c))
  obtain ⟨hlen, hso, happ, hlate⟩ := limitTo_sorted n hn _ hsorted
  refine ⟨?_, ?_, hso, ?_, ?_⟩
  · unfold getChatMessages Store.messagesOf
    rw [hlen, hperm.length_eq]
  · intro m hm
    have h1 : m ∈ sortByTimestampDesc (s.messages.filter (fun m => m.chatId == c)) := by
      rw [← happ]
      exact List.mem_append_left _ hm
    have h2 := (List.mem_filter.mp (hperm.mem_iff.mp h1))
    exact ⟨by simpa using h2.2, h2.1⟩
  · refine ⟨(sortByTimestampDesc (s.messages.filter (fun m => m.chatId == c))).drop n, ?_, hlate⟩
    unfold getChatMessages
    rw [happ]
    exact hperm
  · unfold getChatById Chat.findOne getChatMessages
    cases s.chats.find? (fun x => x.chatId == c) <;> rfl

/-- Witness of C13: the two latest messages of chat `c1` in `storeCounted`, and the latest
one alone. -/
theorem getChatMessages_latest_witness :
    (getChatMessages "c1" 1 storeCounted).map (fun m => m.messageId) = ["m2"] ∧
    (getChatMessages "c1" 1 storeCounted).length = min 1 (storeCounted.messagesOf "c1").length :=
  ⟨by decide, (getChatMessages_latest "c1" 1 storeCounted (by decide)).1⟩

/-! ## Media listing -/

theorem filter_key_of_nodup {α : Type} (key : α → String) (l : List α)
    (hl : (l.map key).Nodup) (c : α) (hc : c ∈ l) :
    l.filter (fun x => key x == key c) = [c] := by
  induction l with
  | nil => cases hc
  | cons x xs ih =>
    simp only [List.map_cons, List.nodup_cons] at hl
    rcases List.mem_cons.mp hc with hcx | hcx
    · subst hcx
      have hrest : xs.filter (fun y => key y == key c) = [] := by
        rw [List.filter_eq_nil_iff]
        intro y hy hk
        exact hl.1 (List.mem_map.mpr ⟨y, hy, by simpa using hk⟩)
      simp [List.filter_cons, hrest]
    · have hne : key x ≠ key c := by
        intro hk
        exact hl.1 (List.mem_map.mpr ⟨c, hcx, hk.symm⟩)
      simp [List.filter_cons, hne, ih hl.2 hcx]

theorem chatMapGet_filter (p : Chat → Bool) (chats : List Chat) (k : String)
    (hp : ∀ c ∈ chats, c.chatId = k → p c = true) :
    chatMapGet (chats.filter p) k = chatMapGet chats k := by
  unfold chatMapGet
  rw [List.filter_filter]
  congr 1
  apply List.filter_congr
  intro c hc
  by_cases hk : c.chatId = k
  · simp [hk, hp c hc hk]
  · simp [hk]

theorem chatNameOf_of_mem (chats : List Chat) (hn : (chats.map (fun c => c.chatId)).Nodup)
    (c : Chat) (hc : c ∈ chats) :
    chatNameOf chats c.chatId = if c.name = "" then "Unknown" else c.name := by
  unfold chatNameOf chatMapGet
  rw [filter_key_of_nodup (fun x : Chat => x.chatId) chats hn c hc]
  by_cases hname : c.name = "" <;> simp [hname]

theorem chatNameOf_of_absent (chats : List Chat) (k : String)
    (hk : ∀ c ∈ chats, c.chatId ≠ k) : chatNameOf chats k = "Unknown" := by
  unfold chatNameOf chatMapGet
  have : chats.filter (fun c => c.chatId == k) = [] := by
    rw [List.filter_eq_nil_iff]
    intro c hc hck
    exact hk c hc (by simpa using hck)
  rw [this]
  rfl

/-- The media branch of the handler sets `mediaType` exactly when it sets `mediaUrl`. -/
theorem attachMedia_coherent (mediaDir : String) (now : Instant) (message : RawMessage)
    (chat : RawChat) (contact : RawContact) (fetch : MediaFetch) :
    (attachMedia mediaDir now message fetch (messageData message chat contact)).mediaType.isSome =
      (attachMedia mediaDir now message fetch (messageData message chat contact)).mediaUrl.isSome := by
  unfold attachMedia
  cases message.hasMedia
  · simp [messageData]
  · cases fetch <;> simp [messageData]

/-- C14 (counterexample). With the limit `0` the listing is not capped: one entry is
returned. For the image `m3` of chat `c2`, whose stored name is empty, the entry's `chatName`
is `Unknown`. And a stored message with a `mediaType` but without `mediaUrl` is listed. -/
theorem getMediaMessages_deviations :
    (getMediaMessages none 0 storeCounted).length = 1 ∧
    (storeC2M3.chats.map (fun c => (c.chatId, c.name))) = [("c2", "")] ∧
    (getMediaMessages none 5 storeC2M3).map (fun e => (e.message.chatId, e.chatName)) =
      [("c2", "Unknown")] ∧
    (getMediaMessages none 5 storeTypeOnly).map
      (fun e => (e.message.messageId, e.message.hasMediaRef)) = [("m4", false)] := by
  decide

/-- C14 (amended). On a store that respects the unique indexes and whose messages have
`mediaType` set exactly when they have `mediaUrl` set, and for a limit `n ≥ 1`,
`getMediaMessages(t, n)` returns at most `n` entries ordered by message timestamp, latest
first; every entry's message is a stored message with a media reference that satisfies the
filter (`mediaType = t` for a given `t`); together with the omitted messages the listed ones
are exactly the stored messages that satisfy the filter, and no omitted one is later than a
listed one; `chatId` is the message's `chatId`; `chatName` is the name of the stored chat with
that `chatId`, or `Unknown` when that name is empty or no such chat is stored. -/
theorem getMediaMessages_listing (t : Option String) (n : Nat) (s : Store) (hn : 1 ≤ n)
    (hs : s.UniqueKeys)
    (hcoh : ∀ m ∈ s.messages, m.mediaType.isSome = m.hasMediaRef) :
    (getMediaMessages t n s).length ≤ n ∧
    ((getMediaMessages t n s).map (fun e => e.message)).Sorted
      (fun a b => b.timestamp ≤ a.timestamp) ∧
    (∀ e ∈ getMediaMessages t n s,
      e.message ∈ s.messages ∧ e.message.hasMediaRef = true ∧ mediaQuery t e.message = true ∧
      e.chatId = e.message.chatId ∧
      (∀ c ∈ s.chats, c.chatId = e.message.chatId →
        e.chatName = if c.name = "" then "Unknown" else c.name) ∧
      ((∀ c ∈ s.chats, c.chatId ≠ e.message.chatId) → e.chatName = "Unknown")) ∧
    (∃ omitted,
      ((getMediaMessages t n s).map (fun e => e.message) ++ omitted).Perm
        (s.messages.filter (mediaQuery t)) ∧
      ∀ m ∈ (getMediaMessages t n s).map (fun e => e.message), ∀ x ∈ omitted,
        x.timestamp ≤ m.timestamp) := by
  have hsorted := sorted_sortByTimestampDesc (s.messages.filter (mediaQuery t))
  have hperm := perm_sortByTimestampDesc (s.messages.filter (mediaQuery t))
  obtain ⟨hlen, hso, happ, hlate⟩ := limitTo_sorted n hn _ hsorted
  have hmap : (getMediaMessages t n s).map (fun e => e.message) =
      limitTo n (sortByTimestampDesc (s.messages.filter (mediaQuery t))) := by
    unfold getMediaMessages
    simp only [List.map_map, Function.comp_def, List.map_id']
  have hmem : ∀ m ∈ limitTo n (sortByTimestampDesc (s.messages.filter (mediaQuery t))),
      m ∈ s.messages ∧ mediaQuery t m = true := by
    intro m hm
    have h1 : m ∈ sortByTimestampDesc (s.messages.filter (mediaQuery t)) := by
      rw [← happ]
      exact List.mem_append_left _ hm
    exact List.mem_filter.mp (hperm.mem_iff.mp h1)
  refine ⟨?_, ?_, ?_, ?_⟩
  · have : (getMediaMessages t n s).length =
        (limitTo n (sortByTimestampDesc (s.messages.filter (mediaQuery t)))).length := by
      rw [← hmap, List.length_map]
    rw [this, hlen]
    exact Nat.min_le_left _ _
  · rw [hmap]; exact hso
  · intro e he
    unfold getMediaMessages at he
    obtain ⟨m, hm, hem⟩ := List.mem_map.mp he
    subst hem
    simp only
    obtain ⟨hms, hq⟩ := hmem m hm
    have hsome : m.mediaType.isSome = true := by
      unfold mediaQuery at hq
      by_cases ht : truthy t = true
      · simp only [ht, if_true] at hq
        have hmt : m.mediaType = t := by simpa using hq
        rw [hmt]
        cases t with
        | none => simp [truthy] at ht
        | some v => rfl
      · simpa [ht] using hq
    have hname : chatNameOf
        (s.chats.filter (fun c =>
          (uniqueIds ((limitTo n (sortByTimestampDesc (s.messages.filter (mediaQuery t)))).map
            (fun m => m.chatId))).contains c.chatId)) m.chatId =
        chatNameOf s.chats m.chatId := by
      unfold chatNameOf
      rw [chatMapGet_filter]
      intro c _ hc
      simp only [List.contains, List.elem_eq_mem, decide_eq_true_eq, mem_uniqueIds, List.mem_map]
      exact ⟨m, hm, hc.symm⟩
    refine ⟨hms, by rw [← hcoh m hms]; exact hsome, hq, trivial, ?_, ?_⟩
    · intro c hc hck
      rw [hname, ← hck]
      exact chatNameOf_of_mem s.chats hs.1 c hc
    · intro habs
      rw [hname]
      exact chatNameOf_of_absent s.chats m.chatId habs
  · refine ⟨(sortByTimestampDesc (s.messages.filter (mediaQuery t))).drop n, ?_, ?_⟩
    · rw [hmap, happ]; exact hperm
    · rw [hmap]; exact hlate

/-- Witness of C14: the media listing of `storeCounted` with limit `5`. -/
theorem getMediaMessages_listing_witness :
    storeCounted.UniqueKeys ∧
    (getMediaMessages none 5 storeCounted).map (fun e => (e.chatName, e.message.messageId)) =
      [("Alice", "m2")] ∧
    (getMediaMessages none 5 storeCounted).length ≤ 5 :=
  ⟨by decide, by decide,
    (getMediaMessages_listing none 5 storeCounted (by decide) (by decide) (by decide)).1⟩

/-! ## Recomputed counters -/

/-- The `messageCount` that `updateMetadata` computes is the number of stored messages of the
chat, and the `mediaCount` is the number of those whose `type` is not `text`. -/
theorem updateMetadata_counts (s : Store) (c : Chat) :
    (Chat.updateMetadata s c).metadata.messageCount = (s.countsOf c.chatId).1 ∧
    (Chat.updateMetadata s c).metadata.mediaCount =
      s.messages.countP (fun m => m.chatId == c.chatId && m.type != "text") :=
  ⟨rfl, rfl⟩

/-- C16 (the code at the failing input). The store holds chat `c1` and its one message `m5`,
a plain text message of type `chat` without media. The counters that `saveMessageToDatabase`
maintained are `(1, 0)`, and so are the number of stored messages of `c1` and the number of
those with a media reference; `updateMetadata` sets the counters of the chat to `(1, 1)`. -/
theorem updateMetadata_mediaCount_differs :
    storeC1M5.messages.map (fun m => (m.messageId, m.chatId, m.type, m.mediaUrl)) =
      [("m5", "c1", "chat", none)] ∧
    storeC1M5.counters "c1" = some (1, 0) ∧
    storeC1M5.countsOf "c1" = (1, 0) ∧
    storeC1M5.chats.map (fun c =>
      ((Chat.updateMetadata storeC1M5 c).metadata.messageCount,
        (Chat.updateMetadata storeC1M5 c).metadata.mediaCount)) = [(1, 1)] := by
  decide

/-! ## Interleaved runs -/

/-- Three database calls of a single run of `saveMessageToDatabase`, with no other run in
between, are the function `saveMessageToDatabase` on a healthy database. -/
theorem interleave_single_save (now : Instant) (md : MessageData) (s : Store) :
    ∃ r, interleave [0, 0, 0] [Run.ofData now md] s =
        ([r], (saveMessageToDatabase SaveEnv.quiet now md s).2) ∧
      r.phase = .finished (saveMessageToDatabase SaveEnv.quiet now md s).1 := by
  simp only [interleave, List.foldl, stepAt, Run.ofData, List.getElem?_cons_zero, List.set_cons_zero,
    saveMessageToDatabase, SaveEnv.quiet, Bool.false_eq_true, if_false, id]
  cases hfind : Message.findOne md.messageId s with
  | some e => simp [Run.step, hfind]
  | none =>
    cases hsave : Message.save false now md s with
    | error e => simp [Run.step, hfind, hsave]
    | ok p => simp [Run.step, hfind, hsave]

/-- Four database calls of a single run of the handler, with no other run in between, are
the handler on a healthy database. -/
theorem interleave_single_onMessage (now : Instant) (message : RawMessage) (chat : RawChat)
    (contact : RawContact) (fetch : MediaFetch) (s : Store) :
    ∃ r, interleave [0, 0, 0, 0]
        [Run.ofEvent "uploads/media" now message chat contact fetch] s =
        ([r], (onMessage (HandlerEnv.quiet fetch) now message chat contact s).2) ∧
      r.phase = .finished (onMessage (HandlerEnv.quiet fetch) now message chat contact s).1 := by
  rw [onMessage_eq]
  have hfirst : interleave [0, 0, 0, 0]
      [Run.ofEvent "uploads/media" now message chat contact fetch] s =
      interleave [0, 0, 0]
        [Run.ofData now (attachMedia "uploads/media" now message fetch
          (messageData message chat contact))]
        (saveChatToDatabase false now chat s).2 := rfl
  rw [hfirst]
  exact interleave_single_save now _ _

/-- C15 (the code at the failing input). Two runs of the handler, for the distinct messages
`m1` and `m2` of chat `c1`, are started together on the empty store and scheduled one after
the other: both messages are stored, with one media reference, but the counters of `c1` end
as `(1, 1)`. Three runs, for `m1`, `m2` and `m5`, scheduled with their calls interleaved,
all return; three messages of `c1` are stored and the counters end as `(2, 1)`. -/
theorem interleave_counters_lost :
    (interleave [0, 0, 0, 0, 1, 1, 1, 1] runsM1M2 Store.empty).1.map Run.isFinished =
      [true, true] ∧
    (interleave [0, 0, 0, 0, 1, 1, 1, 1] runsM1M2 Store.empty).2.countsOf "c1" = (2, 1) ∧
    (interleave [0, 0, 0, 0, 1, 1, 1, 1] runsM1M2 Store.empty).2.counters "c1" = some (1, 1) ∧
    (interleave [0, 1, 0, 0, 0, 2, 1, 1, 1, 2, 2, 2] runsM1M2M5 Store.empty).1.map
      Run.isFinished = [true, true, true] ∧
    (interleave [0, 1, 0, 0, 0, 2, 1, 1, 1, 2, 2, 2] runsM1M2M5 Store.empty).2.countsOf "c1" =
      (3, 1) ∧
    (interleave [0, 1, 0, 0, 0, 2, 1, 1, 1, 2, 2, 2] runsM1M2M5 Store.empty).2.counters "c1" =
      some (2, 1) := by
  decide

theorem countsOf_append (s : Store) (k : String) (m : Message) (hk : m.chatId = k) :
    Store.countsOf { s with messages := s.messages ++ [m] } k =
      ((s.countsOf k).1 + 1, (s.countsOf k).2 + (if truthy m.mediaUrl then 1 else 0)) := by
  unfold Store.countsOf Message.hasMediaRef
  simp only [List.countP_append, List.countP_cons, List.countP_nil, hk, beq_self_eq_true,
    Bool.true_and, if_true, Nat.zero_add]

/-- The effect of one database call of a run of `saveMessageToDatabase` on what is stored
and on what the run still owes: the stored messages of the chat and the counters of the chat
grow exactly by what the run no longer owes. -/
theorem Run.step_effect (k : String) (r : Run) (s : Store) (h : r.Fresh k s) :
    (r.step s).1.data = r.data ∧ (r.step s).1.isSave = true ∧
    ((r.step s).1.awaitsInsert = true →
      r.awaitsInsert = true ∧ (r.step s).2.messages = s.messages) ∧
    ((r.step s).2.messages = s.messages ∨
      (r.awaitsInsert = true ∧
        ∃ m : Message, m.messageId = r.data.messageId ∧
          (r.step s).2.messages = s.messages ++ [m])) ∧
    ((r.step s).2.countsOf k).1 + (if (r.step s).1.awaitsInsert then 1 else 0) =
      (s.countsOf k).1 + (if r.awaitsInsert then 1 else 0) ∧
    ((r.step s).2.countsOf k).2 + (if (r.step s).1.awaitsInsert then r.mediaDelta else 0) =
      (s.countsOf k).2 + (if r.awaitsInsert then r.mediaDelta else 0) ∧
    (∀ c, Chat.findOne k s = some c →
      ∃ c1, Chat.findOne k (r.step s).2 = some c1 ∧
        c1.metadata.messageCount + (if (r.step s).1.awaitsIncrement then 1 else 0) =
          c.metadata.messageCount + (if r.awaitsIncrement then 1 else 0) ∧
        c1.metadata.mediaCount + (if (r.step s).1.awaitsIncrement then r.mediaDelta else 0) =
          c.metadata.mediaCount + (if r.awaitsIncrement then r.mediaDelta else 0)) := by
  obtain ⟨hk, hvalid, hsave, hfresh⟩ := h
  obtain ⟨data, now, phase⟩ := r
  cases phase with
  | upsert chat => simp [Run.isSave] at hsave
  | find =>
    have hnone : Message.findOne data.messageId s = none := by
      rw [findOne_eq_none_iff, List.any_eq_false]
      intro m hm
      have := hfresh rfl m hm
      simpa using this
    have hstep : Run.step { data := data, now := now, phase := .find } s =
        ({ data := data, now := now, phase := .insert }, s) := by
      simp [Run.step, hnone]
    rw [hstep]
    refine ⟨rfl, rfl, fun _ => ⟨rfl, rfl⟩, Or.inl rfl, rfl, rfl, ?_⟩
    intro c hc
    exact ⟨c, hc, rfl, rfl⟩
  | insert =>
    have hnodup : s.messages.any (fun m => m.messageId == data.messageId) = false := by
      rw [List.any_eq_false]
      intro m hm
      have := hfresh rfl m hm
      simpa using this
    have hsaved : Message.save false now data s =
        .ok ({ toMessageData := data, createdAt := now, updatedAt := now },
          { s with messages := s.messages ++
            [{ toMessageData := data, createdAt := now, updatedAt := now }] }) := by
      simp only at hvalid
      simp [Message.save, hvalid, hnodup]
    have hstep : Run.step { data := data, now := now, phase := .insert } s =
        ({ data := data, now := now,
           phase := .increment { toMessageData := data, createdAt := now, updatedAt := now } },
          { s with messages := s.messages ++
            [{ toMessageData := data, createdAt := now, updatedAt := now }] }) := by
      simp [Run.step, hsaved]
    rw [hstep]
    have hcount := countsOf_append s k
      { toMessageData := data, createdAt := now, updatedAt := now } hk
    refine ⟨rfl, rfl, ?_, Or.inr ⟨rfl, _, rfl, rfl⟩, ?_, ?_, ?_⟩
    · intro h; simp [Run.awaitsInsert] at h
    · rw [hcount]; simp [Run.awaitsInsert]
    · rw [hcount]; simp [Run.awaitsInsert, Run.mediaDelta]
    · intro c hc
      exact ⟨c, hc, rfl, rfl⟩
  | increment message =>
    have hstep : Run.step { data := data, now := now, phase := .increment message } s =
        ({ data := data, now := now, phase := .finished (.ok message) },
          Chat.findOneAndInc now data.chatId (if truthy data.mediaUrl then 1 else 0) s) := rfl
    rw [hstep]
    refine ⟨rfl, rfl, fun h => by simp [Run.awaitsInsert] at h, Or.inl rfl, rfl, rfl, ?_⟩
    intro c hc
    refine ⟨Chat.incCounters now (if truthy data.mediaUrl then 1 else 0) c, ?_, ?_, ?_⟩
    · simp only at hk
      unfold Chat.findOne Chat.findOneAndInc
      simp only [hk]
      rw [updateFirst_find? (fun x : Chat => x.chatId == k)
        (Chat.incCounters now (if truthy data.mediaUrl then 1 else 0)) (fun x hx => hx)]
      unfold Chat.findOne at hc
      rw [hc]; rfl
    · simp [Chat.incCounters, Run.awaitsIncrement]
    · simp [Chat.incCounters, Run.awaitsIncrement, Run.mediaDelta]
  | finished result =>
    have hstep : Run.step { data := data, now := now, phase := .finished result } s =
        ({ data := data, now := now, phase := .finished result }, s) := rfl
    rw [hstep]
    refine ⟨rfl, rfl, fun h => by simp [Run.awaitsInsert] at h, Or.inl rfl, rfl, rfl, ?_⟩
    intro c hc
    exact ⟨c, hc, rfl, rfl⟩

theorem sum_map_set {α : Type} (f : α → Nat) (l : List α) (i : Nat) (a b : α)
    (h : l[i]? = some a) : ((l.set i b).map f).sum + f a = (l.map f).sum + f b := by
  induction l generalizing i with
  | nil => simp at h
  | cons x xs ih =>
    cases i with
    | zero =>
      simp only [List.getElem?_cons_zero, Option.some.injEq] at h
      subst h
      simp only [List.set_cons_zero, List.map_cons, List.sum_cons]
      omega
    | succ n =>
      simp only [List.getElem?_cons_succ] at h
      have := ih n h
      simp only [List.set_cons_succ, List.map_cons, List.sum_cons]
      omega

theorem sum_map_eq_zero {α : Type} (f : α → Nat) (l : List α) (h : ∀ a ∈ l, f a = 0) :
    (l.map f).sum = 0 := by
  induction l with
  | nil => rfl
  | cons x xs ih =>
    simp only [List.map_cons, List.sum_cons]
    rw [h x (List.mem_cons_self x xs), ih (fun a ha => h a (List.mem_cons_of_mem x ha))]

theorem stepAt_inv (k : String) (M M' C C' : Nat) (i : Nat) (runs : List Run) (s : Store)
    (h : interleaveInv k M M' C C' runs s) :
    interleaveInv k M M' C C' (stepAt i runs s).1 (stepAt i runs s).2 := by
  unfold stepAt
  cases hi : runs[i]? with
  | none => exact h
  | some r =>
    simp only
    obtain ⟨hfresh, hdist, hM, hM', c, hc, hC, hC'⟩ := h
    have hlt : i < runs.length := (List.getElem?_eq_some.mp hi).1
    obtain ⟨hdata, hsave, hawait, hmsgs, hn1, hn2, hcnt⟩ := Run.step_effect k r s (hfresh i r hi)
    have hdelta : (r.step s).1.mediaDelta = r.mediaDelta := by
      unfold Run.mediaDelta; rw [hdata]
    have hold : ∀ j rj, (runs.set i (r.step s).1)[j]? = some rj →
        (i = j ∧ rj = (r.step s).1) ∨ (i ≠ j ∧ runs[j]? = some rj) := by
      intro j rj hj
      rw [List.getElem?_set] at hj
      by_cases hij : i = j
      · simp only [hij, if_true] at hj
        subst hij
        simp only [hlt, if_true, Option.some.injEq] at hj
        exact Or.inl ⟨rfl, hj.symm⟩
      · simp only [hij, if_false] at hj
        exact Or.inr ⟨hij, hj⟩
    refine ⟨?_, ?_, ?_, ?_, ?_⟩
    · intro j rj hj
      rcases hold j rj hj with ⟨_, hrj⟩ | ⟨hij, hrj⟩
      · subst hrj
        obtain ⟨hk, hvalid, _, hfr⟩ := hfresh i r hi
        refine ⟨by rw [hdata]; exact hk, by rw [hdata]; exact hvalid, hsave, ?_⟩
        intro ha m hm
        obtain ⟨hra, hsame⟩ := hawait ha
        rw [hsame] at hm
        rw [hdata]
        exact hfr hra m hm
      · obtain ⟨hk, hvalid, hsv, hfr⟩ := hfresh j rj hrj
        refine ⟨hk, hvalid, hsv, ?_⟩
        intro ha m hm
        rcases hmsgs with hsame | ⟨_, m0, hm0, happ⟩
        · rw [hsame] at hm
          exact hfr ha m hm
        · rw [happ] at hm
          rcases List.mem_append.mp hm with hm1 | hm1
          · exact hfr ha m hm1
          · simp only [List.mem_singleton] at hm1
            subst hm1
            intro heq
            exact hij (hdist i j r rj hi hrj (by rw [← hm0, heq]))
    · intro a b ra rb ha hb hid
      have hfa : ∃ ra0, runs[a]? = some ra0 ∧ ra0.data = ra.data := by
        rcases hold a ra ha with ⟨hia, hra⟩ | ⟨_, hra⟩
        · exact ⟨r, by rw [← hia]; exact hi, by rw [hra, hdata]⟩
        · exact ⟨ra, hra, rfl⟩
      have hfb : ∃ rb0, runs[b]? = some rb0 ∧ rb0.data = rb.data := by
        rcases hold b rb hb with ⟨hib, hrb⟩ | ⟨_, hrb⟩
        · exact ⟨r, by rw [← hib]; exact hi, by rw [hrb, hdata]⟩
        · exact ⟨rb, hrb, rfl⟩
      obtain ⟨ra0, hra0, hda⟩ := hfa
      obtain ⟨rb0, hrb0, hdb⟩ := hfb
      exact hdist a b ra0 rb0 hra0 hrb0 (by rw [hda, hdb]; exact hid)
    · have hsum := sum_map_set (fun r : Run => if r.awaitsInsert then 1 else 0) runs i r
        (r.step s).1 hi
      simp only at hsum
      omega
    · have hsum := sum_map_set (fun r : Run => if r.awaitsInsert then r.mediaDelta else 0) runs i r
        (r.step s).1 hi
      simp only [hdelta] at hsum
      omega
    · obtain ⟨c1, hc1, hmc, hmd⟩ := hcnt c hc
      refine ⟨c1, hc1, ?_, ?_⟩
      · have hsum := sum_map_set (fun r : Run => if r.awaitsIncrement then 1 else 0) runs i r
          (r.step s).1 hi
        simp only at hsum
        omega
      · have hsum := sum_map_set (fun r : Run => if r.awaitsIncrement then r.mediaDelta else 0)
          runs i r (r.step s).1 hi
        simp only [hdelta] at hsum
        omega

theorem interleave_inv (k : String) (M M' C C' : Nat) (schedule : List Nat) (runs : List Run)
    (s : Store) (h : interleaveInv k M M' C C' runs s) :
    interleaveInv k M M' C C' (interleave schedule runs s).1 (interleave schedule runs s).2 := by
  induction schedule generalizing runs s with
  | nil => exact h
  | cons i rest ih =>
    have hstep : interleave (i :: rest) runs s =
        interleave rest (stepAt i runs s).1 (stepAt i runs s).2 := rfl
    rw [hstep]
    exact ih _ _ (stepAt_inv k M M' C C' i runs s h)

theorem sum_map_indicator {α : Type} (p : α → Bool) (l : List α) :
    (l.map (fun a => if p a = true then 1 else 0)).sum = l.countP p := by
  induction l with
  | nil => rfl
  | cons x xs ih =>
    simp only [List.map_cons, List.sum_cons, List.countP_cons, ih]
    omega

theorem sum_map_one {α : Type} (l : List α) : (l.map (fun _ => 1)).sum = l.length := by
  induction l with
  | nil => rfl
  | cons x xs ih =>
    simp only [List.map_cons, List.sum_cons, List.length_cons, ih]
    omega

theorem getElem?_inj_of_nodup {α : Type} (f : α → String) (l : List α)
    (hl : (l.map f).Nodup) (i j : Nat) (a b : α) (ha : l[i]? = some a) (hb : l[j]? = some b)
    (hf : f a = f b) : i = j := by
  induction l generalizing i j with
  | nil => simp at ha
  | cons x xs ih =>
    simp only [List.map_cons, List.nodup_cons] at hl
    cases i with
    | zero =>
      cases j with
      | zero => rfl
      | succ m =>
        simp only [List.getElem?_cons_zero, Option.some.injEq] at ha
        simp only [List.getElem?_cons_succ] at hb
        exfalso
        apply hl.1
        rw [ha, hf]
        exact List.mem_map.mpr ⟨b, List.getElem?_mem hb, rfl⟩
    | succ n =>
      cases j with
      | zero =>
        simp only [List.getElem?_cons_zero, Option.some.injEq] at hb
        simp only [List.getElem?_cons_succ] at ha
        exfalso
        apply hl.1
        rw [hb, ← hf]
        exact List.mem_map.mpr ⟨a, List.getElem?_mem ha, rfl⟩
      | succ m =>
        simp only [List.getElem?_cons_succ] at ha hb
        rw [ih hl.2 n m ha hb]

theorem Run.owes_nothing (r : Run) (h : r.isFinished = true) :
    r.awaitsInsert = false ∧ r.awaitsIncrement = false := by
  obtain ⟨data, now, phase⟩ := r
  cases phase <;> simp [Run.isFinished, Run.awaitsInsert, Run.awaitsIncrement] at h ⊢

/-- No increment is lost among concurrent calls of `saveMessageToDatabase`. Calls for valid
records with distinct new `messageId`s, all of chat `k`, which is stored, are interleaved by
any schedule. Once all calls have returned, every record is stored and counted: the counters
of `k` and the numbers of stored messages of `k` (all, and those with a media reference) have
grown by the number of calls and by the number of calls with a `mediaUrl`. -/
theorem interleave_saves_counted (k : String) (schedule : List Nat)
    (calls : List (Instant × MessageData)) (s : Store) (c : Chat)
    (hk : ∀ p ∈ calls, p.2.chatId = k ∧ validateMessage p.2 = .ok ())
    (hids : (calls.map (fun p => p.2.messageId)).Nodup)
    (hnew : ∀ p ∈ calls, Message.findOne p.2.messageId s = none)
    (hc : Chat.findOne k s = some c)
    (hdone : ∀ r ∈ (interleave schedule (calls.map (fun p => Run.ofData p.1 p.2)) s).1,
      r.isFinished = true) :
    ∃ c1, Chat.findOne k (interleave schedule (calls.map (fun p => Run.ofData p.1 p.2)) s).2 =
        some c1 ∧
      c1.metadata.messageCount = c.metadata.messageCount + calls.length ∧
      c1.metadata.mediaCount =
        c.metadata.mediaCount + calls.countP (fun p => truthy p.2.mediaUrl) ∧
      (interleave schedule (calls.map (fun p => Run.ofData p.1 p.2)) s).2.countsOf k =
        ((s.countsOf k).1 + calls.length,
          (s.countsOf k).2 + calls.countP (fun p => truthy p.2.mediaUrl)) := by
  have hinit : interleaveInv k ((s.countsOf k).1 + calls.length)
      ((s.countsOf k).2 + calls.countP (fun p => truthy p.2.mediaUrl))
      (c.metadata.messageCount + calls.length)
      (c.metadata.mediaCount + calls.countP (fun p => truthy p.2.mediaUrl))
      (calls.map (fun p => Run.ofData p.1 p.2)) s := by
    refine ⟨?_, ?_, ?_, ?_, c, hc, ?_, ?_⟩
    · intro i r hr
      obtain ⟨p, hp, hpr⟩ := List.mem_map.mp (List.getElem?_mem hr)
      subst hpr
      refine ⟨(hk p hp).1, (hk p hp).2, rfl, ?_⟩
      intro _ m hm
      have h1 := (findOne_eq_none_iff p.2.messageId s).mp (hnew p hp)
      rw [List.any_eq_false] at h1
      simpa [Run.ofData] using h1 m hm
    · intro i j ri rj hi hj hid
      have hmap : ((calls.map (fun p => Run.ofData p.1 p.2)).map
          (fun r : Run => r.data.messageId)).Nodup := by
        rw [List.map_map]
        exact hids
      exact getElem?_inj_of_nodup (fun r : Run => r.data.messageId) _ hmap i j ri rj hi hj hid
    · rw [List.map_map]
      have : ((fun r : Run => if r.awaitsInsert = true then 1 else 0) ∘
          fun p : Instant × MessageData => Run.ofData p.1 p.2) = fun _ => 1 := rfl
      rw [this, sum_map_one]
    · rw [List.map_map]
      have : ((fun r : Run => if r.awaitsInsert = true then r.mediaDelta else 0) ∘
          fun p : Instant × MessageData => Run.ofData p.1 p.2) =
          fun p => if truthy p.2.mediaUrl = true then 1 else 0 := rfl
      rw [this, sum_map_indicator (fun p : Instant × MessageData => truthy p.2.mediaUrl)]
    · rw [List.map_map]
      have : ((fun r : Run => if r.awaitsIncrement = true then 1 else 0) ∘
          fun p : Instant × MessageData => Run.ofData p.1 p.2) = fun _ => 1 := rfl
      rw [this, sum_map_one]
    · rw [List.map_map]
      have : ((fun r : Run => if r.awaitsIncrement = true then r.mediaDelta else 0) ∘
          fun p : Instant × MessageData => Run.ofData p.1 p.2) =
          fun p => if truthy p.2.mediaUrl = true then 1 else 0 := rfl
      rw [this, sum_map_indicator (fun p : Instant × MessageData => truthy p.2.mediaUrl)]
  obtain ⟨_, _, hM, hM', c1, hc1, hC, hC'⟩ := interleave_inv k _ _ _ _ schedule _ s hinit
  have z1 := sum_map_eq_zero (fun r : Run => if r.awaitsInsert then 1 else 0)
    (interleave schedule (calls.map (fun p => Run.ofData p.1 p.2)) s).1
    (fun r hr => by simp [(Run.owes_nothing r (hdone r hr)).1])
  have z2 := sum_map_eq_zero (fun r : Run => if r.awaitsInsert then r.mediaDelta else 0)
    (interleave schedule (calls.map (fun p => Run.ofData p.1 p.2)) s).1
    (fun r hr => by simp [(Run.owes_nothing r (hdone r hr)).1])
  have z3 := sum_map_eq_zero (fun r : Run => if r.awaitsIncrement then 1 else 0)
    (interleave schedule (calls.map (fun p => Run.ofData p.1 p.2)) s).1
    (fun r hr => by simp [(Run.owes_nothing r (hdone r hr)).2])
  have z4 := sum_map_eq_zero (fun r : Run => if r.awaitsIncrement then r.mediaDelta else 0)
    (interleave schedule (calls.map (fun p => Run.ofData p.1 p.2)) s).1
    (fun r hr => by simp [(Run.owes_nothing r (hdone r hr)).2])
  rw [z1] at hM
  rw [z2] at hM'
  rw [z3] at hC
  rw [z4] at hC'
  refine ⟨c1, hc1, by omega, by omega, ?_⟩
  exact Prod.ext (by simpa using hM) (by simpa using hM')

/-- An instance of the preceding statement: the calls for `m1` and `m2` on `storeC1`, with
their database calls alternating, both return, and the counters of `c1` end as `(2, 1)`. -/
theorem interleave_saves_counted_example :
    (interleave [0, 1, 0, 1, 0, 1] [Run.ofData 150 dataM1, Run.ofData 160 dataM2] storeC1).1.map
      Run.isFinished = [true, true] ∧
    (interleave [0, 1, 0, 1, 0, 1] [Run.ofData 150 dataM1, Run.ofData 160 dataM2]
      storeC1).2.counters "c1" = some (2, 1) ∧
    (interleave [0, 1, 0, 1, 0, 1] [Run.ofData 150 dataM1, Run.ofData 160 dataM2]
      storeC1).2.countsOf "c1" = (2, 1) := by
  decide

end WhatsappCrm
